import Mathlib

/-!
# Verification of the WhatsApp-bot session manager

Shallow embedding of `app/services/session_manager.py` (class `SessionManager`).

Modelling conventions:
* Timestamps (`datetime.now()`) are abstract instants modelled as `Nat`;
  every operation receives the current instant `now` explicitly.
* `datetime.isoformat` / `datetime.fromisoformat` are modelled by an
  injective decimal serialization `isoformat : Nat → String` with partial
  inverse `fromisoformat : String → Option Nat` (parsing fails on
  non-numeric strings, as `fromisoformat` raises `ValueError`).
* The session dictionary `self.sessions` is modelled as an association
  list with the Python `dict` semantics (first-match lookup, in-place
  replacement of an existing key, append of a fresh key); well-formed
  stores have pairwise distinct keys.
* All operations run under `self.lock`, so the observable behaviour of the
  system is a sequential interleaving of complete operations; one pass of
  the background cleanup thread (`_cleanup_expired_sessions` body) is the
  `tick` function, with the injected notifier (`send_message_func`)
  conforming to its interface contract of never raising.
* Message history entries store their timestamp as the serialized string,
  exactly as the Python code does.
-/

/-- JSON values, for modelling `json.dump` / `json.load` payloads. -/
inductive Json where
  | null : Json
  | bool (b : Bool) : Json
  | num (n : Int) : Json
  | str (s : String) : Json
  | arr (elems : List Json) : Json
  | obj (fields : List (String × Json)) : Json

/-- Contents of the persistence file as seen by `load_sessions`:
absent (raises `FileNotFoundError`), syntactically invalid JSON
(raises `json.JSONDecodeError`), or a parsed JSON value. -/
inductive File where
  | missing : File
  | invalid : File
  | valid (j : Json) : File

/-- One entry of `message_history`: the Python dict
`{'role': ..., 'content': ..., 'timestamp': <isoformat string>}`. -/
structure Message where
  role : String
  content : String
  timestamp : String
deriving DecidableEq

/-- A session record, with exactly the keys created by `get_session`. -/
structure Session where
  created_at : Nat
  last_activity : Nat
  state : String
  context : Json
  thread_id : Option String
  message_history : List Message
  inactivity_warning_sent : Bool
  closing_notice_sent : Bool

/-- The in-memory session map `self.sessions`. -/
abbrev Store := List (String × Session)

/-- Python dict read `self.sessions.get(user_id)` / `user_id in self.sessions`. -/
def lookupSession : Store → String → Option Session
  | [], _ => none
  | (k, s) :: rest, uid => if k = uid then some s else lookupSession rest uid

/-- Python dict write `self.sessions[user_id] = s`: replace in place when the
key exists, append otherwise. -/
def setSession : Store → String → Session → Store
  | [], uid, s => [(uid, s)]
  | (k, s₀) :: rest, uid, s =>
      if k = uid then (uid, s) :: rest else (k, s₀) :: setSession rest uid s

/-- Python dict delete `del self.sessions[user_id]` (no-op when absent). -/
def eraseSession : Store → String → Store
  | [], _ => []
  | (k, s₀) :: rest, uid =>
      if k = uid then eraseSession rest uid else (k, s₀) :: eraseSession rest uid

/-- The keys of the store. -/
def storeKeys (st : Store) : List String := st.map Prod.fst

/-- Well-formedness: a Python dict has pairwise distinct keys. -/
def WFStore (st : Store) : Prop := (storeKeys st).Nodup

/-! ## Timestamp serialization (model of `isoformat` / `fromisoformat`) -/

/-- One decimal digit as a character (48 is the code of the zero digit). -/
def digitChar (d : Nat) : Char := Char.ofNat (48 + d)

/-- Inverse of `digitChar` on decimal digit characters; `none` elsewhere. -/
def charDigit (c : Char) : Option Nat :=
  if c.isDigit then some (c.toNat - 48) else none

/-- Model of `datetime.isoformat`: serialize the abstract instant to its
decimal string (most significant digit first). -/
def isoformat (t : Nat) : String :=
  if t = 0 then "0" else String.mk (((Nat.digits 10 t).map digitChar).reverse)

/-- Parse a list of characters as decimal digits; `none` if any is not a digit. -/
def parseDigits : List Char → Option (List Nat)
  | [] => some []
  | c :: cs =>
      match charDigit c, parseDigits cs with
      | some d, some ds => some (d :: ds)
      | _, _ => none

/-- Model of `datetime.fromisoformat`: parse the decimal string back, failing
(`ValueError`) on the empty string or on any non-digit character. -/
def fromisoformat (s : String) : Option Nat :=
  match parseDigits s.data with
  | none => none
  | some ds => if ds = [] then none else some (ds.foldl (fun n d => n * 10 + d) 0)

theorem charDigit_digitChar {d : Nat} (h : d < 10) : charDigit (digitChar d) = some d := by
  interval_cases d <;> rfl

theorem parseDigits_map_digitChar (L : List Nat) (h : ∀ d ∈ L, d < 10) :
    parseDigits (L.map digitChar) = some L := by
  induction L with
  | nil => rfl
  | cons d L ih =>
      have hd : d < 10 := h d (List.mem_cons_self d L)
      have hL : ∀ x ∈ L, x < 10 := fun x hx => h x (List.mem_cons_of_mem d hx)
      simp only [List.map_cons, parseDigits, charDigit_digitChar hd, ih hL]

theorem foldl_reverse_eq_ofDigits (L : List Nat) :
    L.reverse.foldl (fun n d => n * 10 + d) 0 = Nat.ofDigits 10 L := by
  rw [List.foldl_reverse]
  induction L with
  | nil => simp [Nat.ofDigits]
  | cons d L ih =>
      simp only [List.foldr_cons, Nat.ofDigits_cons, ih]
      ring

/-- The serialization round-trips exactly. -/
theorem fromisoformat_isoformat (t : Nat) : fromisoformat (isoformat t) = some t := by
  by_cases h : t = 0
  · subst h; rfl
  · have hdig : ∀ d ∈ Nat.digits 10 t, d < 10 :=
      fun d hd => Nat.digits_lt_base (by norm_num) hd
    have hne : Nat.digits 10 t ≠ [] := Nat.digits_ne_nil_iff_ne_zero.mpr h
    have hrevne : (Nat.digits 10 t).reverse ≠ [] := by
      simpa using hne
    unfold isoformat fromisoformat
    rw [if_neg h]
    have hdata : (String.mk (((Nat.digits 10 t).map digitChar).reverse)).data
        = ((Nat.digits 10 t).map digitChar).reverse := rfl
    rw [hdata, ← List.map_reverse]
    rw [parseDigits_map_digitChar _ (fun d hd => hdig d (List.mem_reverse.mp hd))]
    simp only [if_neg hrevne]
    rw [foldl_reverse_eq_ofDigits, Nat.ofDigits_digits]

/-! ## Session store operations (`SessionManager` methods) -/

/-- The fresh session record created by `get_session` for an unseen user. -/
def newSession (now : Nat) : Session :=
  { created_at := now
    last_activity := now
    state := "INITIAL"
    context := Json.obj []
    thread_id := none
    message_history := []
    inactivity_warning_sent := false
    closing_notice_sent := false }

/-- `SessionManager.get_session`: return the user's session, creating it if
absent; on an existing session refresh `last_activity` and clear both notice
flags.  Returns the session together with the updated store. -/
def get_session (now : Nat) (user_id : String) (st : Store) : Session × Store :=
  match lookupSession st user_id with
  | none =>
      let s := newSession now
      (s, setSession st user_id s)
  | some s =>
      let s' := { s with last_activity := now
                         inactivity_warning_sent := false
                         closing_notice_sent := false }
      (s', setSession st user_id s')

/-- One `key=value` item of the `**kwargs` of `update_session`.  The Python
check `if key in session` admits exactly the eight keys every session record
has; `unknown` stands for any other key (its value is irrelevant because the
code drops the pair). -/
inductive FieldUpdate where
  | created_at (v : Nat)
  | last_activity (v : Nat)
  | state (v : String)
  | context (v : Json)
  | thread_id (v : Option String)
  | message_history (v : List Message)
  | inactivity_warning_sent (v : Bool)
  | closing_notice_sent (v : Bool)
  | unknown (key : String)

/-- Apply one kwarg: `if key in session: session[key] = value` (unrecognized
keys are dropped). -/
def applyFieldUpdate (s : Session) : FieldUpdate → Session
  | .created_at v => { s with created_at := v }
  | .last_activity v => { s with last_activity := v }
  | .state v => { s with state := v }
  | .context v => { s with context := v }
  | .thread_id v => { s with thread_id := v }
  | .message_history v => { s with message_history := v }
  | .inactivity_warning_sent v => { s with inactivity_warning_sent := v }
  | .closing_notice_sent v => { s with closing_notice_sent := v }
  | .unknown _ => s

/-- `SessionManager.update_session`: no-op when the user is absent; otherwise
apply the recognized kwargs in order, then refresh `last_activity` and clear
both notice flags. -/
def update_session (now : Nat) (user_id : String) (kwargs : List FieldUpdate)
    (st : Store) : Store :=
  match lookupSession st user_id with
  | none => st
  | some s =>
      let s₁ := kwargs.foldl applyFieldUpdate s
      setSession st user_id
        { s₁ with last_activity := now
                  inactivity_warning_sent := false
                  closing_notice_sent := false }

/-- `SessionManager.end_session`: delete the session when present. -/
def end_session (user_id : String) (st : Store) : Store :=
  eraseSession st user_id

/-- `SessionManager.is_session_active`: the session exists and
`now < last_activity + session_timeout`. -/
def is_session_active (session_timeout now : Nat) (user_id : String) (st : Store) : Bool :=
  match lookupSession st user_id with
  | none => false
  | some s => decide ((now : Int) < (s.last_activity : Int) + (session_timeout : Int))

/-- `SessionManager.add_message_to_history`: no-op when the user is absent;
otherwise append the entry, refresh `last_activity`, clear both notice flags. -/
def add_message_to_history (now : Nat) (user_id role content : String) (st : Store) : Store :=
  match lookupSession st user_id with
  | none => st
  | some s =>
      setSession st user_id
        { s with message_history :=
                   s.message_history ++ [⟨role, content, isoformat now⟩]
                 last_activity := now
                 inactivity_warning_sent := false
                 closing_notice_sent := false }

/-- `SessionManager.get_message_history`: `message_history[-limit:]` of the
user's session, or `[]` when absent.  Python slicing: `[-0:]` is the whole
list, `[-limit:]` for `limit > 0` keeps the last `min limit len` entries. -/
def get_message_history (user_id : String) (limit : Nat) (st : Store) : List Message :=
  match lookupSession st user_id with
  | none => []
  | some s =>
      if limit = 0 then s.message_history
      else s.message_history.drop (s.message_history.length - limit)

/-! ## The expiry scheduler (`_cleanup_expired_sessions` body) -/

/-- `(current_time - session['last_activity']).total_seconds()`. -/
def inactiveTime (now : Nat) (s : Session) : Int :=
  (now : Int) - (s.last_activity : Int)

/-- Condition of the closing branch:
`inactive_time >= self.session_timeout and not session['closing_notice_sent']`. -/
def dueClose (session_timeout now : Nat) (s : Session) : Bool :=
  decide ((session_timeout : Int) ≤ inactiveTime now s) && !s.closing_notice_sent

/-- Condition of the warning branch (`self.inactivity_warning` is
`session_timeout // 2`):
`inactive_time >= self.inactivity_warning and not session['inactivity_warning_sent']`. -/
def dueWarn (session_timeout now : Nat) (s : Session) : Bool :=
  decide (((session_timeout / 2 : Nat) : Int) ≤ inactiveTime now s) &&
    !s.inactivity_warning_sent

/-- The locked scan of one cleanup pass: walk the entries, set the flag and
collect the user into `users_to_close` (closing branch takes priority) or
`users_to_warn` (the `elif`).  Returns the mutated store and the two lists. -/
def scanSessions (session_timeout now : Nat) : Store → Store × List String × List String
  | [] => ([], [], [])
  | (uid, s) :: rest =>
      let r := scanSessions session_timeout now rest
      if dueClose session_timeout now s then
        ((uid, { s with closing_notice_sent := true }) :: r.1, uid :: r.2.1, r.2.2)
      else if dueWarn session_timeout now s then
        ((uid, { s with inactivity_warning_sent := true }) :: r.1, r.2.1, uid :: r.2.2)
      else
        ((uid, s) :: r.1, r.2.1, r.2.2)

/-- The fixed warning text of `_send_inactivity_warning`. -/
def warningText : String :=
  "¿Sigues ahí? Esta conversación se cerrará por inactividad en 5 minutos. Si ya no necesitas asistencia, puedes responder finalizar para cerrar la conversación."

/-- The fixed closing text of `_close_inactive_session`. -/
def closingText : String :=
  "La conversación ha sido finalizada debido a inactividad. Puedes iniciar una nueva conversación cuando lo necesites."

/-- The history entry appended by `_send_inactivity_warning`. -/
def warningMessage (now : Nat) : Message :=
  ⟨"assistant", warningText, isoformat now⟩

/-- The history entry appended by `_close_inactive_session`. -/
def closingMessage (now : Nat) : Message :=
  ⟨"assistant", closingText, isoformat now⟩

/-- `SessionManager._send_inactivity_warning`: notify the user (the injected
`send_message_func`, modelled as total per its interface contract), then, if
the session still exists, append the warning to its history without touching
`last_activity`. -/
def send_inactivity_warning (now : Nat) (st : Store) (user_id : String) : Store :=
  match lookupSession st user_id with
  | none => st
  | some s =>
      setSession st user_id
        { s with message_history := s.message_history ++ [warningMessage now] }

/-- `SessionManager._close_inactive_session`: notify the user, then, if the
session still exists, append the closing message to its history and delete
the session. -/
def close_inactive_session (now : Nat) (st : Store) (user_id : String) : Store :=
  match lookupSession st user_id with
  | none => st
  | some s =>
      eraseSession
        (setSession st user_id
          { s with message_history := s.message_history ++ [closingMessage now] })
        user_id

/-- One pass of the `while True` loop of `_cleanup_expired_sessions`: the
locked scan, then all warnings, then all closes (each outside the lock). -/
def tick (session_timeout now : Nat) (st : Store) : Store :=
  let r := scanSessions session_timeout now st
  let st₂ := r.2.2.foldl (send_inactivity_warning now) r.1
  r.2.1.foldl (close_inactive_session now) st₂

/-! ## Persistence (`save_sessions` / `load_sessions`) -/

/-- First-match lookup in a JSON object (`dict` access). -/
def jsonLookup : List (String × Json) → String → Option Json
  | [], _ => none
  | (k, v) :: rest, key => if k = key then some v else jsonLookup rest key

/-- Serialization of one history entry by `json.dump`. -/
def messageToJson (m : Message) : Json :=
  Json.obj [("role", Json.str m.role), ("content", Json.str m.content),
            ("timestamp", Json.str m.timestamp)]

/-- Serialization of one session by `save_sessions`: `session.copy()` with
`created_at` / `last_activity` replaced by their `isoformat` strings. -/
def sessionToJson (s : Session) : Json :=
  Json.obj
    [("created_at", Json.str (isoformat s.created_at)),
     ("last_activity", Json.str (isoformat s.last_activity)),
     ("state", Json.str s.state),
     ("context", s.context),
     ("thread_id", match s.thread_id with | none => Json.null | some t => Json.str t),
     ("message_history", Json.arr (s.message_history.map messageToJson)),
     ("inactivity_warning_sent", Json.bool s.inactivity_warning_sent),
     ("closing_notice_sent", Json.bool s.closing_notice_sent)]

/-- `SessionManager.save_sessions`: the JSON file content written. -/
def save_sessions (st : Store) : File :=
  File.valid (Json.obj (st.map (fun p => (p.1, sessionToJson p.2))))

/-- Deserialization of one history entry, as far as the typed model requires
a well-formed entry (the Python code keeps the loaded value verbatim). -/
def messageOfJson (j : Json) : Except String Message :=
  match j with
  | Json.obj kvs =>
      match jsonLookup kvs "role", jsonLookup kvs "content", jsonLookup kvs "timestamp" with
      | some (Json.str r), some (Json.str c), some (Json.str t) => Except.ok ⟨r, c, t⟩
      | _, _, _ => Except.error "malformed history entry"
  | _ => Except.error "malformed history entry"

def messagesOfJson : List Json → Except String (List Message)
  | [] => Except.ok []
  | j :: rest =>
      match messageOfJson j, messagesOfJson rest with
      | Except.ok m, Except.ok ms => Except.ok (m :: ms)
      | Except.error e, _ => Except.error e
      | _, Except.error e => Except.error e

/-- Deserialization of one session record by `load_sessions`: parse
`created_at` and `last_activity` (a missing key raises `KeyError`, a
non-string raises `TypeError`, an unparsable string raises `ValueError`),
default a missing notice flag to `False`, and keep the remaining fields.
The typed embedding additionally requires the remaining fields to be
well-typed session values. -/
def sessionOfJson (j : Json) : Except String Session :=
  match j with
  | Json.obj kvs =>
      match jsonLookup kvs "created_at" with
      | none => Except.error "KeyError: created_at"
      | some (Json.str cs) =>
          match fromisoformat cs with
          | none => Except.error "ValueError: created_at"
          | some created =>
              match jsonLookup kvs "last_activity" with
              | none => Except.error "KeyError: last_activity"
              | some (Json.str ls) =>
                  match fromisoformat ls with
                  | none => Except.error "ValueError: last_activity"
                  | some last =>
                      let warnFlag :=
                        match jsonLookup kvs "inactivity_warning_sent" with
                        | none => some false
                        | some (Json.bool b) => some b
                        | some _ => none
                      let closeFlag :=
                        match jsonLookup kvs "closing_notice_sent" with
                        | none => some false
                        | some (Json.bool b) => some b
                        | some _ => none
                      match warnFlag, closeFlag, jsonLookup kvs "state",
                            jsonLookup kvs "context", jsonLookup kvs "thread_id",
                            jsonLookup kvs "message_history" with
                      | some w, some c, some (Json.str stv), some ctx,
                        some tj, some (Json.arr hj) =>
                          match (match tj with
                                 | Json.null => some (none : Option String)
                                 | Json.str t => some (some t)
                                 | _ => none), messagesOfJson hj with
                          | some tid, Except.ok hist =>
                              Except.ok
                                { created_at := created, last_activity := last,
                                  state := stv, context := ctx, thread_id := tid,
                                  message_history := hist,
                                  inactivity_warning_sent := w,
                                  closing_notice_sent := c }
                          | _, _ => Except.error "malformed session record"
                      | _, _, _, _, _, _ => Except.error "malformed session record"
              | some _ => Except.error "TypeError: last_activity"
      | some _ => Except.error "TypeError: created_at"
  | _ => Except.error "malformed session record"

/-- The `for user_id, session in loaded_sessions.items()` loop: each converted
record is stored; the first conversion failure raises, keeping the entries
already stored. -/
def loadEntries : Store → List (String × Json) → Store × Option String
  | st, [] => (st, none)
  | st, (uid, j) :: rest =>
      match sessionOfJson j with
      | Except.ok s => loadEntries (setSession st uid s) rest
      | Except.error e => (st, some e)

/-- `SessionManager.load_sessions`: a missing file (`FileNotFoundError`) or
syntactically invalid JSON (`json.JSONDecodeError`) is swallowed; a parsed
non-object raises (`.items()` on a non-dict); otherwise the entries are
loaded in order.  The second component is the uncaught exception, if any. -/
def load_sessions (st : Store) (f : File) : Store × Option String :=
  match f with
  | File.missing => (st, none)
  | File.invalid => (st, none)
  | File.valid (Json.obj kvs) => loadEntries st kvs
  | File.valid _ => (st, some "AttributeError: items")

/-! ## Sequential runs of the manager -/

/-- One serialized operation on the shared store: the foreground calls and
one scheduler pass.  (`end_session` reads no clock; its instant is carried
only for uniform time bookkeeping.) -/
inductive Op where
  | get (now : Nat) (user_id : String)
  | update (now : Nat) (user_id : String) (kwargs : List FieldUpdate)
  | addMsg (now : Nat) (user_id role content : String)
  | endS (now : Nat) (user_id : String)
  | tick (now : Nat)

/-- The instant at which an operation runs. -/
def Op.time : Op → Nat
  | .get now _ => now
  | .update now _ _ => now
  | .addMsg now _ _ _ => now
  | .endS now _ => now
  | .tick now => now

/-- Apply one operation to the store. -/
def applyOp (session_timeout : Nat) (st : Store) : Op → Store
  | .get now uid => (get_session now uid st).2
  | .update now uid kwargs => update_session now uid kwargs st
  | .addMsg now uid role content => add_message_to_history now uid role content st
  | .endS _ uid => end_session uid st
  | .tick now => tick session_timeout now st

/-- A run of the manager from its initial empty store. -/
def run (session_timeout : Nat) (ops : List Op) : Store :=
  ops.foldl (applyOp session_timeout) []

/-! ## Basic store lemmas -/

theorem lookupSession_setSession_self (st : Store) (uid : String) (s : Session) :
    lookupSession (setSession st uid s) uid = some s := by
  induction st with
  | nil => simp [setSession, lookupSession]
  | cons p rest ih =>
      obtain ⟨k, s₀⟩ := p
      by_cases h : k = uid
      · simp [setSession, lookupSession, h]
      · simp only [setSession, if_neg h, lookupSession, if_neg h]
        exact ih

theorem lookupSession_setSession_other (st : Store) (uid uid' : String) (s : Session)
    (h : uid' ≠ uid) :
    lookupSession (setSession st uid s) uid' = lookupSession st uid' := by
  have h' : uid ≠ uid' := Ne.symm h
  induction st with
  | nil => simp [setSession, lookupSession, if_neg h']
  | cons p rest ih =>
      obtain ⟨k, s₀⟩ := p
      by_cases hk : k = uid
      · subst hk
        simp only [setSession, if_pos rfl, lookupSession, if_neg h']
      · simp only [setSession, if_neg hk, lookupSession]
        by_cases hk' : k = uid'
        · simp only [if_pos hk']
        · simp only [if_neg hk']
          exact ih

theorem lookupSession_eraseSession_self (st : Store) (uid : String) :
    lookupSession (eraseSession st uid) uid = none := by
  induction st with
  | nil => simp [eraseSession, lookupSession]
  | cons p rest ih =>
      obtain ⟨k, s₀⟩ := p
      by_cases h : k = uid
      · simp only [eraseSession, if_pos h]
        exact ih
      · simp only [eraseSession, if_neg h, lookupSession, if_neg h]
        exact ih

theorem lookupSession_eraseSession_other (st : Store) (uid uid' : String) (h : uid' ≠ uid) :
    lookupSession (eraseSession st uid) uid' = lookupSession st uid' := by
  induction st with
  | nil => simp [eraseSession]
  | cons p rest ih =>
      obtain ⟨k, s₀⟩ := p
      by_cases hk : k = uid
      · subst hk
        have hku : k ≠ uid' := Ne.symm h
        simp only [eraseSession, if_pos rfl, lookupSession, if_neg hku]
        exact ih
      · simp only [eraseSession, if_neg hk, lookupSession]
        by_cases hk' : k = uid'
        · simp only [if_pos hk']
        · simp only [if_neg hk']
          exact ih

theorem lookupSession_mem_keys {st : Store} {uid : String} {s : Session}
    (h : lookupSession st uid = some s) : uid ∈ storeKeys st := by
  induction st with
  | nil => simp [lookupSession] at h
  | cons p rest ih =>
      obtain ⟨k, s₀⟩ := p
      by_cases hk : k = uid
      · subst hk
        simp [storeKeys]
      · simp only [lookupSession, if_neg hk] at h
        simp only [storeKeys, List.map_cons, List.mem_cons]
        right
        exact ih h

theorem lookupSession_none_of_not_mem {st : Store} {uid : String}
    (h : uid ∉ storeKeys st) : lookupSession st uid = none := by
  induction st with
  | nil => rfl
  | cons p rest ih =>
      obtain ⟨k, s₀⟩ := p
      simp only [storeKeys, List.map_cons, List.mem_cons, not_or] at h
      have hk : k ≠ uid := fun hh => h.1 hh.symm
      simp only [lookupSession, if_neg hk]
      exact ih h.2

theorem storeKeys_setSession_present (st : Store) (uid : String) (s : Session)
    (h : uid ∈ storeKeys st) : storeKeys (setSession st uid s) = storeKeys st := by
  induction st with
  | nil => simp [storeKeys] at h
  | cons p rest ih =>
      obtain ⟨k, s₀⟩ := p
      by_cases hk : k = uid
      · subst hk
        simp [setSession, storeKeys]
      · simp only [storeKeys, List.map_cons, List.mem_cons] at h
        rcases h with h | h
        · exact absurd h.symm hk
        · simp only [setSession, if_neg hk, storeKeys, List.map_cons]
          have := ih h
          simp only [storeKeys] at this
          rw [this]

theorem storeKeys_setSession_absent (st : Store) (uid : String) (s : Session)
    (h : uid ∉ storeKeys st) : setSession st uid s = st ++ [(uid, s)] := by
  induction st with
  | nil => rfl
  | cons p rest ih =>
      obtain ⟨k, s₀⟩ := p
      simp only [storeKeys, List.map_cons, List.mem_cons, not_or] at h
      have hk : k ≠ uid := fun hh => h.1 hh.symm
      simp only [setSession, if_neg hk, List.cons_append]
      rw [ih h.2]

theorem storeKeys_eraseSession_sublist (st : Store) (uid : String) :
    (storeKeys (eraseSession st uid)).Sublist (storeKeys st) := by
  induction st with
  | nil => simp [eraseSession, storeKeys]
  | cons p rest ih =>
      obtain ⟨k, s₀⟩ := p
      by_cases hk : k = uid
      · simp only [eraseSession, if_pos hk, storeKeys, List.map_cons]
        exact ih.trans (List.sublist_cons_self _ _)
      · simp only [eraseSession, if_neg hk, storeKeys, List.map_cons]
        exact ih.cons₂ k

theorem WFStore_setSession {st : Store} (uid : String) (s : Session) (h : WFStore st) :
    WFStore (setSession st uid s) := by
  by_cases hmem : uid ∈ storeKeys st
  · unfold WFStore
    rw [storeKeys_setSession_present st uid s hmem]
    exact h
  · unfold WFStore
    rw [storeKeys_setSession_absent st uid s hmem]
    unfold WFStore at h
    simp only [storeKeys, List.map_append, List.map_cons, List.map_nil]
    rw [List.nodup_append]
    refine ⟨h, List.nodup_singleton uid, ?_⟩
    intro a ha hb
    simp only [List.mem_cons, List.not_mem_nil, or_false] at hb
    subst hb
    exact hmem ha

theorem WFStore_eraseSession {st : Store} (uid : String) (h : WFStore st) :
    WFStore (eraseSession st uid) :=
  List.Nodup.sublist (storeKeys_eraseSession_sublist st uid) h

/-! ## Characterizing one scheduler pass -/

/-- The effect of the locked scan on one session record. -/
def markSession (session_timeout now : Nat) (s : Session) : Session :=
  if dueClose session_timeout now s then { s with closing_notice_sent := true }
  else if dueWarn session_timeout now s then { s with inactivity_warning_sent := true }
  else s

theorem scanSessions_lookup (session_timeout now : Nat) (st : Store) (uid : String) :
    lookupSession (scanSessions session_timeout now st).1 uid =
      (lookupSession st uid).map (markSession session_timeout now) := by
  induction st with
  | nil => simp [scanSessions, lookupSession]
  | cons p rest ih =>
      obtain ⟨k, s⟩ := p
      by_cases hk : k = uid
      · subst hk
        by_cases hc : dueClose session_timeout now s
        · simp [scanSessions, hc, lookupSession, markSession]
        · by_cases hw : dueWarn session_timeout now s
          · simp [scanSessions, hc, hw, lookupSession, markSession]
          · simp [scanSessions, hc, hw, lookupSession, markSession]
      · by_cases hc : dueClose session_timeout now s
        · simp only [scanSessions, hc, if_pos, lookupSession, if_neg hk]
          exact ih
        · by_cases hw : dueWarn session_timeout now s
          · simp only [scanSessions, hc, hw, Bool.false_eq_true, if_false, if_true,
              lookupSession, if_neg hk]
            exact ih
          · simp only [scanSessions, hc, hw, Bool.false_eq_true, if_false,
              lookupSession, if_neg hk]
            exact ih

theorem scanSessions_keys (session_timeout now : Nat) (st : Store) :
    storeKeys (scanSessions session_timeout now st).1 = storeKeys st := by
  induction st with
  | nil => simp [scanSessions, storeKeys]
  | cons p rest ih =>
      obtain ⟨k, s⟩ := p
      by_cases hc : dueClose session_timeout now s
      · simp only [scanSessions, hc, if_pos, storeKeys, List.map_cons]
        rw [show List.map Prod.fst (scanSessions session_timeout now rest).1
              = storeKeys (scanSessions session_timeout now rest).1 from rfl, ih]
        rfl
      · by_cases hw : dueWarn session_timeout now s
        · simp only [scanSessions, hc, hw, Bool.false_eq_true, if_false, if_true,
            storeKeys, List.map_cons]
          rw [show List.map Prod.fst (scanSessions session_timeout now rest).1
                = storeKeys (scanSessions session_timeout now rest).1 from rfl, ih]
          rfl
        · simp only [scanSessions, hc, hw, Bool.false_eq_true, if_false,
            storeKeys, List.map_cons]
          rw [show List.map Prod.fst (scanSessions session_timeout now rest).1
                = storeKeys (scanSessions session_timeout now rest).1 from rfl, ih]
          rfl

theorem mem_scanClose_keys (session_timeout now : Nat) (st : Store) (uid : String)
    (h : uid ∈ (scanSessions session_timeout now st).2.1) : uid ∈ storeKeys st := by
  induction st with
  | nil => simp [scanSessions] at h
  | cons p rest ih =>
      obtain ⟨k, s⟩ := p
      by_cases hc : dueClose session_timeout now s
      · simp only [scanSessions, hc, if_pos, List.mem_cons] at h
        rcases h with h | h
        · subst h; simp [storeKeys]
        · simp only [storeKeys, List.map_cons, List.mem_cons]
          exact Or.inr (ih h)
      · by_cases hw : dueWarn session_timeout now s
        · simp only [scanSessions, hc, hw, Bool.false_eq_true, if_false, if_true] at h
          simp only [storeKeys, List.map_cons, List.mem_cons]
          exact Or.inr (ih h)
        · simp only [scanSessions, hc, hw, Bool.false_eq_true, if_false] at h
          simp only [storeKeys, List.map_cons, List.mem_cons]
          exact Or.inr (ih h)

theorem mem_scanWarn_keys (session_timeout now : Nat) (st : Store) (uid : String)
    (h : uid ∈ (scanSessions session_timeout now st).2.2) : uid ∈ storeKeys st := by
  induction st with
  | nil => simp [scanSessions] at h
  | cons p rest ih =>
      obtain ⟨k, s⟩ := p
      by_cases hc : dueClose session_timeout now s
      · simp only [scanSessions, hc, if_pos] at h
        simp only [storeKeys, List.map_cons, List.mem_cons]
        exact Or.inr (ih h)
      · by_cases hw : dueWarn session_timeout now s
        · simp only [scanSessions, hc, hw, Bool.false_eq_true, if_false, if_true,
            List.mem_cons] at h
          rcases h with h | h
          · subst h; simp [storeKeys]
          · simp only [storeKeys, List.map_cons, List.mem_cons]
            exact Or.inr (ih h)
        · simp only [scanSessions, hc, hw, Bool.false_eq_true, if_false] at h
          simp only [storeKeys, List.map_cons, List.mem_cons]
          exact Or.inr (ih h)

theorem mem_scanClose_iff (session_timeout now : Nat) {st : Store} (hwf : WFStore st)
    (uid : String) :
    uid ∈ (scanSessions session_timeout now st).2.1 ↔
      ∃ s, lookupSession st uid = some s ∧ dueClose session_timeout now s = true := by
  induction st with
  | nil => simp [scanSessions, lookupSession]
  | cons p rest ih =>
      obtain ⟨k, s⟩ := p
      have hwf' : WFStore rest := by
        unfold WFStore storeKeys at hwf ⊢
        exact (List.nodup_cons.mp hwf).2
      have hknotin : k ∉ storeKeys rest := by
        unfold WFStore storeKeys at hwf
        exact (List.nodup_cons.mp hwf).1
      by_cases hk : k = uid
      · subst hk
        have hrest : lookupSession rest k = none := lookupSession_none_of_not_mem hknotin
        by_cases hc : dueClose session_timeout now s
        · simp only [scanSessions, hc, if_pos, List.mem_cons, lookupSession, if_pos rfl]
          constructor
          · intro _; exact ⟨s, rfl, hc⟩
          · intro _; exact Or.inl trivial
        · by_cases hw : dueWarn session_timeout now s
          · simp only [scanSessions, hc, hw, Bool.false_eq_true, if_false, if_true,
              lookupSession, if_pos rfl]
            constructor
            · intro hmem
              exact absurd (mem_scanClose_keys session_timeout now rest k hmem) hknotin
            · rintro ⟨s', hs', hc'⟩
              cases hs'
              exact absurd hc' (by simp [hc])
          · simp only [scanSessions, hc, hw, Bool.false_eq_true, if_false,
              lookupSession, if_pos rfl]
            constructor
            · intro hmem
              exact absurd (mem_scanClose_keys session_timeout now rest k hmem) hknotin
            · rintro ⟨s', hs', hc'⟩
              cases hs'
              exact absurd hc' (by simp [hc])
      · have hlk : lookupSession ((k, s) :: rest) uid = lookupSession rest uid := by
          simp [lookupSession, hk]
        by_cases hc : dueClose session_timeout now s
        · simp only [scanSessions, hc, if_pos, List.mem_cons, hlk]
          rw [← ih hwf']
          constructor
          · rintro (h | h)
            · exact absurd h.symm hk
            · exact h
          · exact Or.inr
        · by_cases hw : dueWarn session_timeout now s
          · simp only [scanSessions, hc, hw, Bool.false_eq_true, if_false, if_true, hlk]
            exact ih hwf'
          · simp only [scanSessions, hc, hw, Bool.false_eq_true, if_false, hlk]
            exact ih hwf'

theorem mem_scanWarn_iff (session_timeout now : Nat) {st : Store} (hwf : WFStore st)
    (uid : String) :
    uid ∈ (scanSessions session_timeout now st).2.2 ↔
      ∃ s, lookupSession st uid = some s ∧ dueClose session_timeout now s = false ∧
        dueWarn session_timeout now s = true := by
  induction st with
  | nil => simp [scanSessions, lookupSession]
  | cons p rest ih =>
      obtain ⟨k, s⟩ := p
      have hwf' : WFStore rest := by
        unfold WFStore storeKeys at hwf ⊢
        exact (List.nodup_cons.mp hwf).2
      have hknotin : k ∉ storeKeys rest := by
        unfold WFStore storeKeys at hwf
        exact (List.nodup_cons.mp hwf).1
      by_cases hk : k = uid
      · subst hk
        by_cases hc : dueClose session_timeout now s
        · simp only [scanSessions, hc, if_pos, lookupSession, if_pos rfl]
          constructor
          · intro hmem
            exact absurd (mem_scanWarn_keys session_timeout now rest k hmem) hknotin
          · rintro ⟨s', hs', hc', _⟩
            cases hs'
            exact absurd hc' (by simp [hc])
        · by_cases hw : dueWarn session_timeout now s
          · simp only [scanSessions, hc, hw, Bool.false_eq_true, if_false, if_true,
              List.mem_cons, lookupSession, if_pos rfl]
            constructor
            · intro _
              exact ⟨s, rfl, by simp [hc], hw⟩
            · intro _; exact Or.inl trivial
          · simp only [scanSessions, hc, hw, Bool.false_eq_true, if_false,
              lookupSession, if_pos rfl]
            constructor
            · intro hmem
              exact absurd (mem_scanWarn_keys session_timeout now rest k hmem) hknotin
            · rintro ⟨s', hs', _, hw'⟩
              cases hs'
              exact absurd hw' (by simp [hw])
      · have hlk : lookupSession ((k, s) :: rest) uid = lookupSession rest uid := by
          simp [lookupSession, hk]
        by_cases hc : dueClose session_timeout now s
        · simp only [scanSessions, hc, if_pos, hlk]
          exact ih hwf'
        · by_cases hw : dueWarn session_timeout now s
          · simp only [scanSessions, hc, hw, Bool.false_eq_true, if_false, if_true,
              List.mem_cons, hlk]
            rw [← ih hwf']
            constructor
            · rintro (h | h)
              · exact absurd h.symm hk
              · exact h
            · exact Or.inr
          · simp only [scanSessions, hc, hw, Bool.false_eq_true, if_false, hlk]
            exact ih hwf'

theorem send_inactivity_warning_lookup_other (now : Nat) (st : Store) (uid uid' : String)
    (h : uid' ≠ uid) :
    lookupSession (send_inactivity_warning now st uid) uid' = lookupSession st uid' := by
  unfold send_inactivity_warning
  cases hl : lookupSession st uid with
  | none => rfl
  | some s => exact lookupSession_setSession_other st uid uid' _ h

theorem close_inactive_session_lookup_other (now : Nat) (st : Store) (uid uid' : String)
    (h : uid' ≠ uid) :
    lookupSession (close_inactive_session now st uid) uid' = lookupSession st uid' := by
  unfold close_inactive_session
  cases hl : lookupSession st uid with
  | none => rfl
  | some s =>
      rw [lookupSession_eraseSession_other _ uid uid' h,
          lookupSession_setSession_other st uid uid' _ h]

theorem close_inactive_session_lookup_self (now : Nat) (st : Store) (uid : String) :
    lookupSession (close_inactive_session now st uid) uid = none := by
  unfold close_inactive_session
  cases hl : lookupSession st uid with
  | none => exact hl
  | some s => exact lookupSession_eraseSession_self _ uid

theorem foldl_warn_lookup_not_mem (now : Nat) (l : List String) (st : Store) (uid : String)
    (h : uid ∉ l) :
    lookupSession (l.foldl (send_inactivity_warning now) st) uid = lookupSession st uid := by
  induction l generalizing st with
  | nil => rfl
  | cons u l ih =>
      simp only [List.mem_cons, not_or] at h
      simp only [List.foldl_cons]
      rw [ih _ h.2, send_inactivity_warning_lookup_other now st u uid h.1]

theorem foldl_close_lookup_not_mem (now : Nat) (l : List String) (st : Store) (uid : String)
    (h : uid ∉ l) :
    lookupSession (l.foldl (close_inactive_session now) st) uid = lookupSession st uid := by
  induction l generalizing st with
  | nil => rfl
  | cons u l ih =>
      simp only [List.mem_cons, not_or] at h
      simp only [List.foldl_cons]
      rw [ih _ h.2, close_inactive_session_lookup_other now st u uid h.1]

theorem foldl_close_lookup_mem (now : Nat) (l : List String) (st : Store) (uid : String)
    (h : uid ∈ l) :
    lookupSession (l.foldl (close_inactive_session now) st) uid = none := by
  induction l generalizing st with
  | nil => simp at h
  | cons u l ih =>
      simp only [List.foldl_cons]
      by_cases hu : uid ∈ l
      · exact ih _ hu
      · have heq : u = uid := by
          rcases List.mem_cons.mp h with h' | h'
          · exact h'.symm
          · exact absurd h' hu
        rw [foldl_close_lookup_not_mem now l _ uid hu, heq]
        exact close_inactive_session_lookup_self now st uid

theorem foldl_warn_lookup_mem (now : Nat) (l : List String) (st : Store) (uid : String)
    (hnd : l.Nodup) (h : uid ∈ l) :
    lookupSession (l.foldl (send_inactivity_warning now) st) uid =
      (lookupSession st uid).map
        (fun s => { s with message_history := s.message_history ++ [warningMessage now] }) := by
  induction l generalizing st with
  | nil => simp at h
  | cons u l ih =>
      simp only [List.foldl_cons]
      rcases List.nodup_cons.mp hnd with ⟨hun, hnd'⟩
      rcases List.mem_cons.mp h with h' | h'
      · subst h'
        rw [foldl_warn_lookup_not_mem now l _ uid hun]
        unfold send_inactivity_warning
        cases hl : lookupSession st uid with
        | none => simp [hl]
        | some s => simp [lookupSession_setSession_self]
      · have hne : uid ≠ u := fun hh => hun (hh ▸ h')
        rw [ih _ hnd' h']
        rw [send_inactivity_warning_lookup_other now st u uid hne]

theorem scanClose_sublist_keys (session_timeout now : Nat) (st : Store) :
    (scanSessions session_timeout now st).2.1.Sublist (storeKeys st) := by
  induction st with
  | nil => simp [scanSessions, storeKeys]
  | cons p rest ih =>
      obtain ⟨k, s⟩ := p
      by_cases hc : dueClose session_timeout now s
      · simp only [scanSessions, hc, if_pos, storeKeys, List.map_cons]
        exact ih.cons₂ k
      · by_cases hw : dueWarn session_timeout now s
        · simp only [scanSessions, hc, hw, Bool.false_eq_true, if_false, if_true,
            storeKeys, List.map_cons]
          exact ih.trans (List.sublist_cons_self _ _)
        · simp only [scanSessions, hc, hw, Bool.false_eq_true, if_false,
            storeKeys, List.map_cons]
          exact ih.trans (List.sublist_cons_self _ _)

theorem scanWarn_sublist_keys (session_timeout now : Nat) (st : Store) :
    (scanSessions session_timeout now st).2.2.Sublist (storeKeys st) := by
  induction st with
  | nil => simp [scanSessions, storeKeys]
  | cons p rest ih =>
      obtain ⟨k, s⟩ := p
      by_cases hc : dueClose session_timeout now s
      · simp only [scanSessions, hc, if_pos, storeKeys, List.map_cons]
        exact ih.trans (List.sublist_cons_self _ _)
      · by_cases hw : dueWarn session_timeout now s
        · simp only [scanSessions, hc, hw, Bool.false_eq_true, if_false, if_true,
            storeKeys, List.map_cons]
          exact ih.cons₂ k
        · simp only [scanSessions, hc, hw, Bool.false_eq_true, if_false,
            storeKeys, List.map_cons]
          exact ih.trans (List.sublist_cons_self _ _)

theorem storeKeys_send_inactivity_warning (now : Nat) (st : Store) (uid : String) :
    storeKeys (send_inactivity_warning now st uid) = storeKeys st := by
  unfold send_inactivity_warning
  cases hl : lookupSession st uid with
  | none => rfl
  | some s => exact storeKeys_setSession_present st uid _ (lookupSession_mem_keys hl)

theorem storeKeys_close_sublist (now : Nat) (st : Store) (uid : String) :
    (storeKeys (close_inactive_session now st uid)).Sublist (storeKeys st) := by
  unfold close_inactive_session
  cases hl : lookupSession st uid with
  | none => exact List.Sublist.refl _
  | some s =>
      have h1 := storeKeys_eraseSession_sublist
        (setSession st uid
          { s with message_history := s.message_history ++ [closingMessage now] }) uid
      rw [storeKeys_setSession_present st uid _ (lookupSession_mem_keys hl)] at h1
      exact h1

theorem storeKeys_foldl_warn (now : Nat) (l : List String) (st : Store) :
    storeKeys (l.foldl (send_inactivity_warning now) st) = storeKeys st := by
  induction l generalizing st with
  | nil => rfl
  | cons u l ih =>
      simp only [List.foldl_cons]
      rw [ih, storeKeys_send_inactivity_warning]

theorem storeKeys_foldl_close_sublist (now : Nat) (l : List String) (st : Store) :
    (storeKeys (l.foldl (close_inactive_session now) st)).Sublist (storeKeys st) := by
  induction l generalizing st with
  | nil => exact List.Sublist.refl _
  | cons u l ih =>
      simp only [List.foldl_cons]
      exact (ih _).trans (storeKeys_close_sublist now st u)

/-- A scheduler pass never adds sessions, so well-formedness is preserved. -/
theorem WFStore_tick (session_timeout now : Nat) {st : Store} (h : WFStore st) :
    WFStore (tick session_timeout now st) := by
  unfold tick WFStore
  refine List.Nodup.sublist ?_ h
  have h1 := storeKeys_foldl_close_sublist now (scanSessions session_timeout now st).2.1
    ((scanSessions session_timeout now st).2.2.foldl (send_inactivity_warning now)
      (scanSessions session_timeout now st).1)
  rw [storeKeys_foldl_warn, scanSessions_keys] at h1
  exact h1

/-- A present key really resolves: `lookupSession` finds the unique entry. -/
theorem lookupSession_some_of_mem_keys {st : Store} {uid : String}
    (h : uid ∈ storeKeys st) : ∃ s, lookupSession st uid = some s := by
  induction st with
  | nil => simp [storeKeys] at h
  | cons p rest ih =>
      obtain ⟨k, s⟩ := p
      by_cases hk : k = uid
      · exact ⟨s, by simp [lookupSession, hk]⟩
      · simp only [storeKeys, List.map_cons, List.mem_cons] at h
        rcases h with h | h
        · exact absurd h.symm hk
        · rcases ih h with ⟨s', hs'⟩
          exact ⟨s', by simp [lookupSession, hk, hs']⟩

/-- What one scheduler pass does to a given user's session, as a function of
that session alone: a due close deletes it, a due warning sets the warning
flag and appends the warning message, anything else leaves it untouched. -/
theorem tick_lookup (session_timeout now : Nat) {st : Store} (hwf : WFStore st)
    (uid : String) :
    lookupSession (tick session_timeout now st) uid =
      match lookupSession st uid with
      | none => none
      | some s =>
          if dueClose session_timeout now s then none
          else if dueWarn session_timeout now s then
            some { s with inactivity_warning_sent := true
                          message_history := s.message_history ++ [warningMessage now] }
          else some s := by
  unfold tick
  cases hl : lookupSession st uid with
  | none =>
      have hkeys : uid ∉ storeKeys st := fun hmem => by
        rcases lookupSession_some_of_mem_keys hmem with ⟨s, hs⟩
        rw [hs] at hl
        exact Option.noConfusion hl
      have hc : uid ∉ (scanSessions session_timeout now st).2.1 :=
        fun hmem => hkeys (mem_scanClose_keys session_timeout now st uid hmem)
      have hw : uid ∉ (scanSessions session_timeout now st).2.2 :=
        fun hmem => hkeys (mem_scanWarn_keys session_timeout now st uid hmem)
      rw [foldl_close_lookup_not_mem _ _ _ _ hc, foldl_warn_lookup_not_mem _ _ _ _ hw,
          scanSessions_lookup, hl]
      rfl
  | some s =>
      by_cases hc : dueClose session_timeout now s
      · have hmemc : uid ∈ (scanSessions session_timeout now st).2.1 :=
          (mem_scanClose_iff session_timeout now hwf uid).mpr ⟨s, hl, hc⟩
        rw [foldl_close_lookup_mem _ _ _ _ hmemc]
        simp [hc]
      · have hmemc : uid ∉ (scanSessions session_timeout now st).2.1 := fun hmem => by
          rcases (mem_scanClose_iff session_timeout now hwf uid).mp hmem with ⟨s', hs', hc'⟩
          rw [hl] at hs'
          cases hs'
          exact hc (by simp [hc'])
        rw [foldl_close_lookup_not_mem _ _ _ _ hmemc]
        by_cases hw : dueWarn session_timeout now s
        · have hmemw : uid ∈ (scanSessions session_timeout now st).2.2 :=
            (mem_scanWarn_iff session_timeout now hwf uid).mpr ⟨s, hl, by simp [hc], hw⟩
          have hnd : (scanSessions session_timeout now st).2.2.Nodup :=
            List.Nodup.sublist (scanWarn_sublist_keys session_timeout now st) hwf
          rw [foldl_warn_lookup_mem _ _ _ _ hnd hmemw, scanSessions_lookup, hl]
          simp [markSession, hc, hw]
        · have hmemw : uid ∉ (scanSessions session_timeout now st).2.2 := fun hmem => by
            rcases (mem_scanWarn_iff session_timeout now hwf uid).mp hmem with ⟨s', hs', _, hw'⟩
            rw [hl] at hs'
            cases hs'
            exact hw (by simp [hw'])
          rw [foldl_warn_lookup_not_mem _ _ _ _ hmemw, scanSessions_lookup, hl]
          simp [markSession, hc, hw]

/-! ## Pointwise corollaries for each operation -/

theorem tick_lookup_absent (session_timeout now : Nat) {st : Store} (hwf : WFStore st)
    {uid : String} (hst : lookupSession st uid = none) :
    lookupSession (tick session_timeout now st) uid = none := by
  rw [tick_lookup session_timeout now hwf uid, hst]

theorem tick_lookup_close (session_timeout now : Nat) {st : Store} (hwf : WFStore st)
    {uid : String} {s : Session} (hst : lookupSession st uid = some s)
    (hc : dueClose session_timeout now s = true) :
    lookupSession (tick session_timeout now st) uid = none := by
  rw [tick_lookup session_timeout now hwf uid, hst]
  simp [hc]

theorem tick_lookup_warn (session_timeout now : Nat) {st : Store} (hwf : WFStore st)
    {uid : String} {s : Session} (hst : lookupSession st uid = some s)
    (hc : dueClose session_timeout now s = false)
    (hw : dueWarn session_timeout now s = true) :
    lookupSession (tick session_timeout now st) uid =
      some { s with inactivity_warning_sent := true
                    message_history := s.message_history ++ [warningMessage now] } := by
  rw [tick_lookup session_timeout now hwf uid, hst]
  simp [hc, hw]

theorem tick_lookup_idle (session_timeout now : Nat) {st : Store} (hwf : WFStore st)
    {uid : String} {s : Session} (hst : lookupSession st uid = some s)
    (hc : dueClose session_timeout now s = false)
    (hw : dueWarn session_timeout now s = false) :
    lookupSession (tick session_timeout now st) uid = some s := by
  rw [tick_lookup session_timeout now hwf uid, hst]
  simp [hc, hw]

theorem get_session_lookup_self (now : Nat) (uid : String) (st : Store) :
    lookupSession (get_session now uid st).2 uid = some (get_session now uid st).1 := by
  unfold get_session
  cases lookupSession st uid with
  | none => exact lookupSession_setSession_self st uid _
  | some s => exact lookupSession_setSession_self st uid _

theorem get_session_lookup_other (now : Nat) (uid uid' : String) (st : Store)
    (h : uid' ≠ uid) :
    lookupSession (get_session now uid st).2 uid' = lookupSession st uid' := by
  unfold get_session
  cases lookupSession st uid with
  | none => exact lookupSession_setSession_other st uid uid' _ h
  | some s => exact lookupSession_setSession_other st uid uid' _ h

theorem get_session_absent (now : Nat) (uid : String) (st : Store)
    (h : lookupSession st uid = none) :
    get_session now uid st = (newSession now, setSession st uid (newSession now)) := by
  unfold get_session
  rw [h]

theorem get_session_present (now : Nat) (uid : String) (st : Store) {s : Session}
    (h : lookupSession st uid = some s) :
    get_session now uid st =
      ({ s with last_activity := now
                inactivity_warning_sent := false
                closing_notice_sent := false },
       setSession st uid
         { s with last_activity := now
                  inactivity_warning_sent := false
                  closing_notice_sent := false }) := by
  unfold get_session
  rw [h]

theorem update_session_absent (now : Nat) (uid : String) (kwargs : List FieldUpdate)
    (st : Store) (h : lookupSession st uid = none) :
    update_session now uid kwargs st = st := by
  unfold update_session
  rw [h]

theorem update_session_present (now : Nat) (uid : String) (kwargs : List FieldUpdate)
    (st : Store) {s : Session} (h : lookupSession st uid = some s) :
    update_session now uid kwargs st =
      setSession st uid
        { kwargs.foldl applyFieldUpdate s with
            last_activity := now
            inactivity_warning_sent := false
            closing_notice_sent := false } := by
  unfold update_session
  rw [h]

theorem add_message_absent (now : Nat) (uid role content : String) (st : Store)
    (h : lookupSession st uid = none) :
    add_message_to_history now uid role content st = st := by
  unfold add_message_to_history
  rw [h]

theorem add_message_present (now : Nat) (uid role content : String) (st : Store)
    {s : Session} (h : lookupSession st uid = some s) :
    add_message_to_history now uid role content st =
      setSession st uid
        { s with message_history := s.message_history ++ [⟨role, content, isoformat now⟩]
                 last_activity := now
                 inactivity_warning_sent := false
                 closing_notice_sent := false } := by
  unfold add_message_to_history
  rw [h]

theorem applyOp_get (session_timeout now : Nat) (uid : String) (st : Store) :
    applyOp session_timeout st (Op.get now uid) = (get_session now uid st).2 := rfl

theorem applyOp_update (session_timeout now : Nat) (uid : String)
    (kwargs : List FieldUpdate) (st : Store) :
    applyOp session_timeout st (Op.update now uid kwargs) =
      update_session now uid kwargs st := rfl

theorem applyOp_addMsg (session_timeout now : Nat) (uid role content : String) (st : Store) :
    applyOp session_timeout st (Op.addMsg now uid role content) =
      add_message_to_history now uid role content st := rfl

theorem applyOp_endS (session_timeout now : Nat) (uid : String) (st : Store) :
    applyOp session_timeout st (Op.endS now uid) = end_session uid st := rfl

theorem applyOp_tick (session_timeout now : Nat) (st : Store) :
    applyOp session_timeout st (Op.tick now) = tick session_timeout now st := rfl

/-! ## Run invariants -/

/-- No session sits in the store with `closing_notice_sent = true`. -/
def AllClosingClear (st : Store) : Prop :=
  ∀ uid s, lookupSession st uid = some s → s.closing_notice_sent = false

theorem allClosingClear_setSession {st : Store} (uid : String) {s : Session}
    (h : AllClosingClear st) (hs : s.closing_notice_sent = false) :
    AllClosingClear (setSession st uid s) := by
  intro uid' s' hl'
  by_cases he : uid' = uid
  · subst he
    rw [lookupSession_setSession_self] at hl'
    cases hl'
    exact hs
  · rw [lookupSession_setSession_other st uid uid' _ he] at hl'
    exact h uid' s' hl'

theorem WFStore_applyOp (session_timeout : Nat) (st : Store) (op : Op) (h : WFStore st) :
    WFStore (applyOp session_timeout st op) := by
  cases op with
  | get now uid =>
      rw [applyOp_get]
      cases hst : lookupSession st uid with
      | none => rw [get_session_absent now uid st hst]; exact WFStore_setSession uid _ h
      | some s => rw [get_session_present now uid st hst]; exact WFStore_setSession uid _ h
  | update now uid kwargs =>
      rw [applyOp_update]
      cases hst : lookupSession st uid with
      | none => rw [update_session_absent now uid kwargs st hst]; exact h
      | some s =>
          rw [update_session_present now uid kwargs st hst]
          exact WFStore_setSession uid _ h
  | addMsg now uid role content =>
      rw [applyOp_addMsg]
      cases hst : lookupSession st uid with
      | none => rw [add_message_absent now uid role content st hst]; exact h
      | some s =>
          rw [add_message_present now uid role content st hst]
          exact WFStore_setSession uid _ h
  | endS now uid =>
      rw [applyOp_endS]
      exact WFStore_eraseSession uid h
  | tick now =>
      rw [applyOp_tick]
      exact WFStore_tick session_timeout now h

theorem WFStore_foldl_applyOp (session_timeout : Nat) (ops : List Op) (st : Store)
    (h : WFStore st) : WFStore (ops.foldl (applyOp session_timeout) st) := by
  induction ops generalizing st with
  | nil => exact h
  | cons op ops ih =>
      simp only [List.foldl_cons]
      exact ih _ (WFStore_applyOp session_timeout st op h)

theorem WFStore_run (session_timeout : Nat) (ops : List Op) :
    WFStore (run session_timeout ops) :=
  WFStore_foldl_applyOp session_timeout ops [] List.nodup_nil

theorem allClosingClear_applyOp (session_timeout : Nat) {st : Store} (op : Op)
    (hwf : WFStore st) (h : AllClosingClear st) :
    AllClosingClear (applyOp session_timeout st op) := by
  cases op with
  | get now uid =>
      rw [applyOp_get]
      cases hst : lookupSession st uid with
      | none =>
          rw [get_session_absent now uid st hst]
          exact allClosingClear_setSession uid h rfl
      | some s =>
          rw [get_session_present now uid st hst]
          exact allClosingClear_setSession uid h rfl
  | update now uid kwargs =>
      rw [applyOp_update]
      cases hst : lookupSession st uid with
      | none => rw [update_session_absent now uid kwargs st hst]; exact h
      | some s =>
          rw [update_session_present now uid kwargs st hst]
          exact allClosingClear_setSession uid h rfl
  | addMsg now uid role content =>
      rw [applyOp_addMsg]
      cases hst : lookupSession st uid with
      | none => rw [add_message_absent now uid role content st hst]; exact h
      | some s =>
          rw [add_message_present now uid role content st hst]
          exact allClosingClear_setSession uid h rfl
  | endS now uid =>
      rw [applyOp_endS]
      intro uid' s' hl'
      by_cases he : uid' = uid
      · subst he
        unfold end_session at hl'
        rw [lookupSession_eraseSession_self] at hl'
        exact Option.noConfusion hl'
      · unfold end_session at hl'
        rw [lookupSession_eraseSession_other st uid uid' he] at hl'
        exact h uid' s' hl'
  | tick now =>
      rw [applyOp_tick]
      intro uid' s' hl'
      cases hst : lookupSession st uid' with
      | none =>
          rw [tick_lookup_absent session_timeout now hwf hst] at hl'
          exact Option.noConfusion hl'
      | some s =>
          by_cases hc : dueClose session_timeout now s
          · rw [tick_lookup_close session_timeout now hwf hst hc] at hl'
            exact Option.noConfusion hl'
          · by_cases hw : dueWarn session_timeout now s
            · rw [tick_lookup_warn session_timeout now hwf hst
                (Bool.not_eq_true _ ▸ hc) hw] at hl'
              cases hl'
              exact h uid' s hst
            · rw [tick_lookup_idle session_timeout now hwf hst
                (Bool.not_eq_true _ ▸ hc) (Bool.not_eq_true _ ▸ hw)] at hl'
              cases hl'
              exact h uid' s' hst

theorem allClosingClear_foldl (session_timeout : Nat) (ops : List Op) (st : Store)
    (hwf : WFStore st) (h : AllClosingClear st) :
    AllClosingClear (ops.foldl (applyOp session_timeout) st) := by
  induction ops generalizing st with
  | nil => exact h
  | cons op ops ih =>
      simp only [List.foldl_cons]
      exact ih _ (WFStore_applyOp session_timeout st op hwf)
        (allClosingClear_applyOp session_timeout op hwf h)

/-- In every reachable store, every session has `closing_notice_sent = false`. -/
theorem run_allClosingClear (session_timeout : Nat) (ops : List Op) :
    AllClosingClear (run session_timeout ops) :=
  allClosingClear_foldl session_timeout ops [] List.nodup_nil
    (fun _ _ hl => Option.noConfusion hl)

/-! ## Claim theorems -/

/-- C1: in every reachable store no session carries `closing_notice_sent = true`
(the scheduler sets the flag only in the same pass that removes the session),
and a session whose inactivity has reached the timeout at tick time is absent
from the store after that tick, after which still no surviving session carries
the flag. -/
theorem claim_C1_closing_flag_removal (session_timeout : Nat) (ops : List Op)
    (now : Nat) (uid : String) (s : Session)
    (hs : lookupSession (run session_timeout ops) uid = some s)
    (hexp : (session_timeout : Int) ≤ (now : Int) - (s.last_activity : Int)) :
    s.closing_notice_sent = false ∧
    lookupSession (tick session_timeout now (run session_timeout ops)) uid = none ∧
    ∀ uid' s',
      lookupSession (tick session_timeout now (run session_timeout ops)) uid' = some s' →
        s'.closing_notice_sent = false := by
  have hwf := WFStore_run session_timeout ops
  have hclear := run_allClosingClear session_timeout ops
  have hflag := hclear uid s hs
  have htick : tick session_timeout now (run session_timeout ops)
      = run session_timeout (ops ++ [Op.tick now]) := by
    unfold run
    rw [List.foldl_append]
    rfl
  refine ⟨hflag, ?_, ?_⟩
  · apply tick_lookup_close session_timeout now hwf hs
    unfold dueClose inactiveTime
    rw [hflag]
    simp only [Bool.not_false, Bool.and_true, decide_eq_true_eq]
    exact hexp
  · intro uid' s' hl'
    rw [htick] at hl'
    exact run_allClosingClear session_timeout (ops ++ [Op.tick now]) uid' s' hl'

theorem claim_C1_witness :
    lookupSession (run 600 [Op.get 0 "u"]) "u" = some (newSession 0) ∧
    ((600 : Int) ≤ (600 : Int) - ((newSession 0).last_activity : Int)) ∧
    ((newSession 0).closing_notice_sent = false ∧
     lookupSession (tick 600 600 (run 600 [Op.get 0 "u"])) "u" = none ∧
     ∀ uid' s',
       lookupSession (tick 600 600 (run 600 [Op.get 0 "u"])) uid' = some s' →
         s'.closing_notice_sent = false) :=
  ⟨rfl, by decide,
   claim_C1_closing_flag_removal 600 [Op.get 0 "u"] 600 "u" (newSession 0) rfl (by decide)⟩

/-- C8: `get_session` on an unseen user creates and returns a session with
`state = "INITIAL"`, empty context, empty history, no thread handle and both
notice flags false, with `created_at = last_activity = now`; the session is
then present in the store.  The operation is a total function: it never
fails. -/
theorem claim_C8_get_or_create_new (now : Nat) (uid : String) (st : Store)
    (h : lookupSession st uid = none) :
    (get_session now uid st).1.state = "INITIAL" ∧
    (get_session now uid st).1.context = Json.obj [] ∧
    (get_session now uid st).1.message_history = [] ∧
    (get_session now uid st).1.thread_id = none ∧
    (get_session now uid st).1.inactivity_warning_sent = false ∧
    (get_session now uid st).1.closing_notice_sent = false ∧
    (get_session now uid st).1.created_at = now ∧
    (get_session now uid st).1.last_activity = now ∧
    lookupSession (get_session now uid st).2 uid = some (get_session now uid st).1 := by
  rw [get_session_absent now uid st h]
  exact ⟨rfl, rfl, rfl, rfl, rfl, rfl, rfl, rfl, lookupSession_setSession_self st uid _⟩

theorem claim_C8_witness :
    lookupSession [] "newuser" = none ∧
    ((get_session 7 "newuser" []).1.state = "INITIAL" ∧
     (get_session 7 "newuser" []).1.context = Json.obj [] ∧
     (get_session 7 "newuser" []).1.message_history = [] ∧
     (get_session 7 "newuser" []).1.thread_id = none ∧
     (get_session 7 "newuser" []).1.inactivity_warning_sent = false ∧
     (get_session 7 "newuser" []).1.closing_notice_sent = false ∧
     (get_session 7 "newuser" []).1.created_at = 7 ∧
     (get_session 7 "newuser" []).1.last_activity = 7 ∧
     lookupSession (get_session 7 "newuser" []).2 "newuser"
       = some (get_session 7 "newuser" []).1) :=
  ⟨rfl, claim_C8_get_or_create_new 7 "newuser" [] rfl⟩

/-- C5: immediately after `get_session`, `update_session` or
`add_message_to_history` on an existing session, both notice flags are false
and `last_activity` equals the call instant. -/
theorem claim_C5_activity_resets_flags (now : Nat) (uid : String) (st : Store)
    (s : Session) (kwargs : List FieldUpdate) (role content : String)
    (h : lookupSession st uid = some s) :
    (∃ s₁, lookupSession (get_session now uid st).2 uid = some s₁ ∧
       s₁.inactivity_warning_sent = false ∧ s₁.closing_notice_sent = false ∧
       s₁.last_activity = now) ∧
    (∃ s₂, lookupSession (update_session now uid kwargs st) uid = some s₂ ∧
       s₂.inactivity_warning_sent = false ∧ s₂.closing_notice_sent = false ∧
       s₂.last_activity = now) ∧
    (∃ s₃, lookupSession (add_message_to_history now uid role content st) uid = some s₃ ∧
       s₃.inactivity_warning_sent = false ∧ s₃.closing_notice_sent = false ∧
       s₃.last_activity = now) := by
  refine ⟨?_, ?_, ?_⟩
  · rw [get_session_present now uid st h]
    exact ⟨_, lookupSession_setSession_self st uid _, rfl, rfl, rfl⟩
  · rw [update_session_present now uid kwargs st h]
    exact ⟨_, lookupSession_setSession_self st uid _, rfl, rfl, rfl⟩
  · rw [add_message_present now uid role content st h]
    exact ⟨_, lookupSession_setSession_self st uid _, rfl, rfl, rfl⟩

/-- A store with one stale session whose warning flag is set. -/
def demoStaleSession : Session :=
  { created_at := 0
    last_activity := 0
    state := "AWAITING_QUERY"
    context := Json.obj []
    thread_id := some "th1"
    message_history := [⟨"user", "hola", "0"⟩]
    inactivity_warning_sent := true
    closing_notice_sent := false }

def demoStaleStore : Store := [("u1", demoStaleSession)]

theorem claim_C5_witness :
    lookupSession demoStaleStore "u1" = some demoStaleSession ∧
    ((∃ s₁, lookupSession (get_session 900 "u1" demoStaleStore).2 "u1" = some s₁ ∧
        s₁.inactivity_warning_sent = false ∧ s₁.closing_notice_sent = false ∧
        s₁.last_activity = 900) ∧
     (∃ s₂, lookupSession
          (update_session 900 "u1" [FieldUpdate.state "TICKET_CREATION"] demoStaleStore)
          "u1" = some s₂ ∧
        s₂.inactivity_warning_sent = false ∧ s₂.closing_notice_sent = false ∧
        s₂.last_activity = 900) ∧
     (∃ s₃, lookupSession
          (add_message_to_history 900 "u1" "user" "sigo aqui" demoStaleStore)
          "u1" = some s₃ ∧
        s₃.inactivity_warning_sent = false ∧ s₃.closing_notice_sent = false ∧
        s₃.last_activity = 900)) :=
  ⟨rfl, claim_C5_activity_resets_flags 900 "u1" demoStaleStore demoStaleSession
    [FieldUpdate.state "TICKET_CREATION"] "user" "sigo aqui" rfl⟩

/-- C4 fails as stated: with `limit = 0` Python evaluates
`message_history[-0:]`, which is the whole history, so the call can return
more than `limit` entries. -/
theorem claim_C4_counterexample :
    (get_message_history "u1" 0 demoStaleStore).length = 1 ∧
    0 < (get_message_history "u1" 0 demoStaleStore).length :=
  ⟨rfl, by decide⟩

/-- C4 (amended to `limit ≥ 1`): `get_message_history` returns the empty list
when the session is absent, and otherwise the last `limit` entries of the
history — a suffix, hence the most recent entries in insertion order — of
length at most `limit`. -/
theorem claim_C4_recent_history (uid : String) (limit : Nat) (st : Store)
    (hlim : 1 ≤ limit) :
    (lookupSession st uid = none → get_message_history uid limit st = []) ∧
    ∀ s, lookupSession st uid = some s →
      get_message_history uid limit st
        = s.message_history.drop (s.message_history.length - limit) ∧
      (get_message_history uid limit st).length ≤ limit ∧
      List.IsSuffix (get_message_history uid limit st) s.message_history := by
  have hlim0 : limit ≠ 0 := Nat.one_le_iff_ne_zero.mp hlim
  constructor
  · intro h
    unfold get_message_history
    rw [h]
  · intro s h
    unfold get_message_history
    rw [h]
    simp only [if_neg hlim0]
    refine ⟨by trivial, ?_, List.drop_suffix _ _⟩
    rw [List.length_drop]
    omega

theorem claim_C4_witness :
    (1 : Nat) ≤ 1 ∧
    ((lookupSession demoStaleStore "u1" = none →
        get_message_history "u1" 1 demoStaleStore = []) ∧
     ∀ s, lookupSession demoStaleStore "u1" = some s →
       get_message_history "u1" 1 demoStaleStore
         = s.message_history.drop (s.message_history.length - 1) ∧
       (get_message_history "u1" 1 demoStaleStore).length ≤ 1 ∧
       List.IsSuffix (get_message_history "u1" 1 demoStaleStore) s.message_history) :=
  ⟨le_refl 1, claim_C4_recent_history "u1" 1 demoStaleStore (le_refl 1)⟩

/-! ## C7: frame conditions for `update_session` -/

def createdOf : FieldUpdate → Option Nat
  | .created_at v => some v
  | _ => none

def lastActivityOf : FieldUpdate → Option Nat
  | .last_activity v => some v
  | _ => none

def stateOf : FieldUpdate → Option String
  | .state v => some v
  | _ => none

def contextOf : FieldUpdate → Option Json
  | .context v => some v
  | _ => none

def threadOf : FieldUpdate → Option (Option String)
  | .thread_id v => some v
  | _ => none

def historyOf : FieldUpdate → Option (List Message)
  | .message_history v => some v
  | _ => none

def warnFlagOf : FieldUpdate → Option Bool
  | .inactivity_warning_sent v => some v
  | _ => none

def closeFlagOf : FieldUpdate → Option Bool
  | .closing_notice_sent v => some v
  | _ => none

/-- A kwarg whose key the Python check `if key in session` recognizes. -/
def recognizedKey : FieldUpdate → Bool
  | .unknown _ => false
  | _ => true

/-- The value the last kwarg mentioning a given field assigns to it, or the
default when no kwarg mentions it. -/
def lastFieldValue {α : Type} (f : FieldUpdate → Option α) (kwargs : List FieldUpdate)
    (dflt : α) : α :=
  kwargs.foldl (fun acc u => match f u with | some v => v | none => acc) dflt

theorem lastFieldValue_nil {α : Type} (f : FieldUpdate → Option α) (d : α) :
    lastFieldValue f [] d = d := rfl

theorem lastFieldValue_of_none {α : Type} (f : FieldUpdate → Option α)
    (kwargs : List FieldUpdate) (d : α) (h : ∀ u ∈ kwargs, f u = none) :
    lastFieldValue f kwargs d = d := by
  induction kwargs generalizing d with
  | nil => rfl
  | cons u ks ih =>
      have hu : f u = none := h u (List.mem_cons_self u ks)
      have hks : ∀ x ∈ ks, f x = none := fun x hx => h x (List.mem_cons_of_mem u hx)
      unfold lastFieldValue
      simp only [List.foldl_cons, hu]
      exact ih d hks

/-- Applying the kwargs in order assigns the last mentioned value to each
recognized field and leaves the others at their previous value. -/
theorem foldl_applyFieldUpdate_spec (kwargs : List FieldUpdate) (s : Session) :
    kwargs.foldl applyFieldUpdate s =
      { created_at := lastFieldValue createdOf kwargs s.created_at
        last_activity := lastFieldValue lastActivityOf kwargs s.last_activity
        state := lastFieldValue stateOf kwargs s.state
        context := lastFieldValue contextOf kwargs s.context
        thread_id := lastFieldValue threadOf kwargs s.thread_id
        message_history := lastFieldValue historyOf kwargs s.message_history
        inactivity_warning_sent :=
          lastFieldValue warnFlagOf kwargs s.inactivity_warning_sent
        closing_notice_sent :=
          lastFieldValue closeFlagOf kwargs s.closing_notice_sent } := by
  induction kwargs generalizing s with
  | nil => rfl
  | cons u ks ih =>
      simp only [List.foldl_cons]
      rw [ih]
      cases u <;> rfl

/-- Unrecognized kwargs are dropped by the `if key in session` test: an update
with them behaves exactly like the update with them filtered out. -/
theorem foldl_applyFieldUpdate_filter (kwargs : List FieldUpdate) (s : Session) :
    kwargs.foldl applyFieldUpdate s
      = (kwargs.filter recognizedKey).foldl applyFieldUpdate s := by
  induction kwargs generalizing s with
  | nil => rfl
  | cons u ks ih =>
      cases u <;>
        simp only [List.foldl_cons, List.filter_cons, recognizedKey, if_pos, if_neg,
          Bool.false_eq_true, ite_false, ite_true] <;>
        exact ih _

/-- C7: `update_session` is a no-op for an absent user; for a present user it
behaves the same with unrecognized keys dropped, never touches other users,
and produces exactly the record whose recognized fields take the last value
the kwargs assign (defaulting to the previous value), with `last_activity`
refreshed to the call instant and both notice flags cleared. -/
theorem claim_C7_update_frame (now : Nat) (uid : String) (kwargs : List FieldUpdate)
    (st : Store) (s : Session) (h : lookupSession st uid = some s) :
    (∀ st', lookupSession st' uid = none → update_session now uid kwargs st' = st') ∧
    update_session now uid kwargs st
      = update_session now uid (kwargs.filter recognizedKey) st ∧
    (∀ uid', uid' ≠ uid →
      lookupSession (update_session now uid kwargs st) uid' = lookupSession st uid') ∧
    lookupSession (update_session now uid kwargs st) uid =
      some { created_at := lastFieldValue createdOf kwargs s.created_at
             last_activity := now
             state := lastFieldValue stateOf kwargs s.state
             context := lastFieldValue contextOf kwargs s.context
             thread_id := lastFieldValue threadOf kwargs s.thread_id
             message_history := lastFieldValue historyOf kwargs s.message_history
             inactivity_warning_sent := false
             closing_notice_sent := false } := by
  refine ⟨?_, ?_, ?_, ?_⟩
  · intro st' h'
    exact update_session_absent now uid kwargs st' h'
  · rw [update_session_present now uid kwargs st h,
        update_session_present now uid (kwargs.filter recognizedKey) st h,
        foldl_applyFieldUpdate_filter]
  · intro uid' hne
    rw [update_session_present now uid kwargs st h]
    exact lookupSession_setSession_other st uid uid' _ hne
  · rw [update_session_present now uid kwargs st h,
        foldl_applyFieldUpdate_spec]
    exact lookupSession_setSession_self st uid _

theorem claim_C7_witness :
    lookupSession demoStaleStore "u1" = some demoStaleSession ∧
    ((∀ st', lookupSession st' "u1" = none →
        update_session 42 "u1" [FieldUpdate.state "X", FieldUpdate.unknown "hacked"] st'
          = st') ∧
     update_session 42 "u1" [FieldUpdate.state "X", FieldUpdate.unknown "hacked"]
         demoStaleStore
       = update_session 42 "u1"
           (List.filter recognizedKey [FieldUpdate.state "X", FieldUpdate.unknown "hacked"])
           demoStaleStore ∧
     (∀ uid', uid' ≠ "u1" →
       lookupSession
           (update_session 42 "u1" [FieldUpdate.state "X", FieldUpdate.unknown "hacked"]
             demoStaleStore) uid'
         = lookupSession demoStaleStore uid') ∧
     lookupSession
         (update_session 42 "u1" [FieldUpdate.state "X", FieldUpdate.unknown "hacked"]
           demoStaleStore) "u1" =
       some { created_at :=
                lastFieldValue createdOf
                  [FieldUpdate.state "X", FieldUpdate.unknown "hacked"]
                  demoStaleSession.created_at
              last_activity := 42
              state := lastFieldValue stateOf
                  [FieldUpdate.state "X", FieldUpdate.unknown "hacked"]
                  demoStaleSession.state
              context := lastFieldValue contextOf
                  [FieldUpdate.state "X", FieldUpdate.unknown "hacked"]
                  demoStaleSession.context
              thread_id := lastFieldValue threadOf
                  [FieldUpdate.state "X", FieldUpdate.unknown "hacked"]
                  demoStaleSession.thread_id
              message_history := lastFieldValue historyOf
                  [FieldUpdate.state "X", FieldUpdate.unknown "hacked"]
                  demoStaleSession.message_history
              inactivity_warning_sent := false
              closing_notice_sent := false }) :=
  ⟨rfl, claim_C7_update_frame 42 "u1" [FieldUpdate.state "X", FieldUpdate.unknown "hacked"]
    demoStaleStore demoStaleSession rfl⟩

/-- C10: a scheduler warning appends the warning entry (role `assistant`) to
the session's history and sets the warning flag, but leaves `last_activity`
and the closing flag untouched; hence with no further foreground activity the
session is still closed by a later pass once its inactivity — measured from
the pre-warning `last_activity` — reaches the timeout. -/
theorem claim_C10_warning_no_refresh (session_timeout now : Nat) (uid : String)
    (st : Store) (s : Session) (hwf : WFStore st)
    (h : lookupSession st uid = some s)
    (hwarnflag : s.inactivity_warning_sent = false)
    (hcloseflag : s.closing_notice_sent = false)
    (hlow : ((session_timeout / 2 : Nat) : Int) ≤ (now : Int) - (s.last_activity : Int))
    (hhigh : (now : Int) - (s.last_activity : Int) < (session_timeout : Int)) :
    ∃ s', lookupSession (tick session_timeout now st) uid = some s' ∧
      s'.message_history = s.message_history ++ [warningMessage now] ∧
      (warningMessage now).role = "assistant" ∧
      s'.last_activity = s.last_activity ∧
      s'.inactivity_warning_sent = true ∧
      s'.closing_notice_sent = false ∧
      ∀ now₂ : Nat, (session_timeout : Int) ≤ (now₂ : Int) - (s.last_activity : Int) →
        lookupSession (tick session_timeout now₂ (tick session_timeout now st)) uid
          = none := by
  have hc : dueClose session_timeout now s = false := by
    unfold dueClose inactiveTime
    rw [hcloseflag]
    simp [not_le.mpr hhigh]
  have hw : dueWarn session_timeout now s = true := by
    unfold dueWarn inactiveTime
    rw [hwarnflag]
    simp only [Bool.not_false, Bool.and_true, decide_eq_true_eq]
    exact hlow
  refine ⟨_, tick_lookup_warn session_timeout now hwf h hc hw, rfl, rfl, rfl, rfl,
    hcloseflag, ?_⟩
  intro now₂ h₂
  have hwf' := WFStore_tick session_timeout now hwf
  apply tick_lookup_close session_timeout now₂ hwf'
    (tick_lookup_warn session_timeout now hwf h hc hw)
  unfold dueClose inactiveTime
  simp only [hcloseflag, Bool.not_false, Bool.and_true, decide_eq_true_eq]
  exact h₂

/-- A fresh, already stale session: created and last active at instant 0. -/
def demoFreshStaleStore : Store := [("u2", newSession 0)]

theorem claim_C10_witness :
    WFStore demoFreshStaleStore ∧
    lookupSession demoFreshStaleStore "u2" = some (newSession 0) ∧
    (((600 / 2 : Nat) : Int) ≤ (310 : Int) - ((newSession 0).last_activity : Int)) ∧
    ((310 : Int) - ((newSession 0).last_activity : Int) < (600 : Int)) ∧
    (∃ s', lookupSession (tick 600 310 demoFreshStaleStore) "u2" = some s' ∧
      s'.message_history = (newSession 0).message_history ++ [warningMessage 310] ∧
      (warningMessage 310).role = "assistant" ∧
      s'.last_activity = (newSession 0).last_activity ∧
      s'.inactivity_warning_sent = true ∧
      s'.closing_notice_sent = false ∧
      ∀ now₂ : Nat, (600 : Int) ≤ (now₂ : Int) - ((newSession 0).last_activity : Int) →
        lookupSession (tick 600 now₂ (tick 600 310 demoFreshStaleStore)) "u2" = none) :=
  ⟨List.nodup_singleton "u2", rfl, by decide, by decide,
   claim_C10_warning_no_refresh 600 310 "u2" demoFreshStaleStore (newSession 0)
     (List.nodup_singleton "u2") rfl rfl rfl (by decide) (by decide)⟩

/-! ## Round-trip of the persisted state -/

theorem messageOfJson_messageToJson (m : Message) :
    messageOfJson (messageToJson m) = Except.ok m := rfl

theorem messagesOfJson_map (hist : List Message) :
    messagesOfJson (hist.map messageToJson) = Except.ok hist := by
  induction hist with
  | nil => rfl
  | cons m hist ih =>
      simp only [List.map_cons, messagesOfJson, messageOfJson_messageToJson, ih]

theorem sessionOfJson_sessionToJson (s : Session) :
    sessionOfJson (sessionToJson s) = Except.ok s := by
  obtain ⟨created, last, stv, ctx, tid, hist, warn, close⟩ := s
  cases tid with
  | none =>
      simp [sessionToJson, sessionOfJson, jsonLookup, fromisoformat_isoformat,
        messagesOfJson_map]
  | some t =>
      simp [sessionToJson, sessionOfJson, jsonLookup, fromisoformat_isoformat,
        messagesOfJson_map]

theorem loadEntries_map (entries : Store) (acc : Store)
    (hdisj : ∀ uid ∈ storeKeys entries, uid ∉ storeKeys acc) (hnd : WFStore entries) :
    loadEntries acc (entries.map (fun p => (p.1, sessionToJson p.2)))
      = (acc ++ entries, none) := by
  induction entries generalizing acc with
  | nil => simp [loadEntries]
  | cons p rest ih =>
      obtain ⟨uid, s⟩ := p
      have huid : uid ∉ storeKeys acc := hdisj uid (by simp [storeKeys])
      have hnd' : WFStore rest := by
        unfold WFStore storeKeys at hnd ⊢
        exact (List.nodup_cons.mp hnd).2
      have huidrest : uid ∉ storeKeys rest := by
        unfold WFStore storeKeys at hnd
        exact (List.nodup_cons.mp hnd).1
      simp only [List.map_cons, loadEntries, sessionOfJson_sessionToJson]
      rw [storeKeys_setSession_absent acc uid s huid]
      rw [ih (acc ++ [(uid, s)])]
      · simp
      · intro uid' h'
        have h1 : uid' ∉ storeKeys acc := by
          apply hdisj
          simp only [storeKeys, List.map_cons, List.mem_cons]
          right
          exact h'
        have h2 : uid' ≠ uid := fun hh => huidrest (hh ▸ h')
        simp only [storeKeys, List.map_append, List.map_cons, List.map_nil,
          List.mem_append, List.mem_cons, List.not_mem_nil, or_false, not_or]
        exact ⟨h1, h2⟩
      · exact hnd'

/-- C6: saving every session and restoring the file into an empty store
reproduces the store exactly — same users, same field values, timestamps
exact (the serialization round-trips them losslessly) — with no exception. -/
theorem claim_C6_snapshot_restore (st : Store) (hwf : WFStore st) :
    load_sessions [] (save_sessions st) = (st, none) := by
  unfold save_sessions load_sessions
  show loadEntries [] (st.map (fun p => (p.1, sessionToJson p.2))) = (st, none)
  rw [loadEntries_map st []]
  · simp
  · intro uid h
    simp [storeKeys]
  · exact hwf

theorem claim_C6_witness :
    WFStore demoStaleStore ∧
    load_sessions [] (save_sessions demoStaleStore) = (demoStaleStore, none) :=
  ⟨List.nodup_singleton "u1", claim_C6_snapshot_restore demoStaleStore
    (List.nodup_singleton "u1")⟩

/-- C2 (amended): `load_sessions` is silent and leaves the store unchanged
for a missing file and for syntactically invalid JSON — exactly the two
exception types the code catches. -/
theorem claim_C2_missing_invalid_silent (st : Store) :
    load_sessions st File.missing = (st, none) ∧
    load_sessions st File.invalid = (st, none) :=
  ⟨rfl, rfl⟩

/-- A syntactically valid JSON file whose only record lacks `created_at`. -/
def c2BadFile : File := File.valid (Json.obj [("u", Json.obj [])])

/-- A well-formed record serialized with explicit decimal timestamps. -/
def c2GoodRecord : Json :=
  Json.obj
    [("created_at", Json.str "5"),
     ("last_activity", Json.str "7"),
     ("state", Json.str "INITIAL"),
     ("context", Json.obj []),
     ("thread_id", Json.null),
     ("message_history", Json.arr []),
     ("inactivity_warning_sent", Json.bool false),
     ("closing_notice_sent", Json.bool false)]

/-- A valid JSON file with one loadable record followed by one record that
raises `KeyError` during conversion. -/
def c2PartialFile : File :=
  File.valid (Json.obj [("u1", c2GoodRecord), ("u2", Json.obj [])])

/-- C2 fails as stated: `load_sessions` only catches `FileNotFoundError` and
`json.JSONDecodeError`.  On syntactically valid JSON of the wrong shape the
per-record conversion raises an uncaught exception (here `KeyError` on
`created_at`), and records converted before the failure have already been
stored, so the operation is neither total nor store-preserving on arbitrary
file contents. -/
theorem claim_C2_counterexample :
    (load_sessions [] c2BadFile).2 = some "KeyError: created_at" ∧
    (load_sessions [] c2PartialFile).2 = some "KeyError: created_at" ∧
    (load_sessions [] c2PartialFile).1 ≠ ([] : Store) :=
  ⟨rfl, rfl, fun h => List.noConfusion h⟩

/-! ## C9: `last_activity >= created_at` -/

/-- A persisted record whose `created_at` is later than its `last_activity`. -/
def c9File : File :=
  File.valid (Json.obj
    [("u", Json.obj
      [("created_at", Json.str "100"),
       ("last_activity", Json.str "50"),
       ("state", Json.str "INITIAL"),
       ("context", Json.obj []),
       ("thread_id", Json.null),
       ("message_history", Json.arr []),
       ("inactivity_warning_sent", Json.bool false),
       ("closing_notice_sent", Json.bool false)])])

/-- C9 fails as stated: `load_sessions` performs no validation, so restoring a
file whose record says `created_at = 100, last_activity = 50` puts a session
violating `last_activity >= created_at` into the store. -/
theorem claim_C9_counterexample :
    ∃ s, lookupSession (load_sessions [] c9File).1 "u" = some s ∧
      s.last_activity < s.created_at :=
  ⟨{ created_at := 100
     last_activity := 50
     state := "INITIAL"
     context := Json.obj []
     thread_id := none
     message_history := []
     inactivity_warning_sent := false
     closing_notice_sent := false },
   rfl, by decide⟩

/-- A kwarg that does not overwrite `created_at`. -/
def keepsCreatedAt : FieldUpdate → Bool
  | .created_at _ => false
  | _ => true

/-- Operations that never overwrite `created_at` through `update_session`. -/
def goodOp : Op → Bool
  | .update _ _ kwargs => kwargs.all keepsCreatedAt
  | _ => true

/-- Every stored session respects the invariant and was last active no later
than `T`. -/
def TimeBounded (T : Nat) (st : Store) : Prop :=
  ∀ uid s, lookupSession st uid = some s →
    s.created_at ≤ s.last_activity ∧ s.last_activity ≤ T

theorem timeBounded_mono {T T' : Nat} {st : Store} (hT : T ≤ T')
    (h : TimeBounded T st) : TimeBounded T' st := by
  intro uid s hl
  rcases h uid s hl with ⟨h1, h2⟩
  exact ⟨h1, h2.trans hT⟩

theorem timeBounded_setSession {T : Nat} {st : Store} (uid : String) {s : Session}
    (h : TimeBounded T st) (h1 : s.created_at ≤ s.last_activity)
    (h2 : s.last_activity ≤ T) : TimeBounded T (setSession st uid s) := by
  intro uid' s' hl'
  by_cases he : uid' = uid
  · subst he
    rw [lookupSession_setSession_self] at hl'
    cases hl'
    exact ⟨h1, h2⟩
  · rw [lookupSession_setSession_other st uid uid' _ he] at hl'
    exact h uid' s' hl'

theorem created_foldl_applyFieldUpdate {kwargs : List FieldUpdate} (s : Session)
    (h : ∀ u ∈ kwargs, keepsCreatedAt u = true) :
    (kwargs.foldl applyFieldUpdate s).created_at = s.created_at := by
  rw [foldl_applyFieldUpdate_spec]
  show lastFieldValue createdOf kwargs s.created_at = s.created_at
  apply lastFieldValue_of_none
  intro u hu
  have := h u hu
  cases u with
  | created_at v => exact absurd this (by simp [keepsCreatedAt])
  | last_activity v => rfl
  | state v => rfl
  | context v => rfl
  | thread_id v => rfl
  | message_history v => rfl
  | inactivity_warning_sent v => rfl
  | closing_notice_sent v => rfl
  | unknown k => rfl

theorem timeBounded_applyOp (session_timeout : Nat) {st : Store} (op : Op) {T : Nat}
    (hwf : WFStore st) (htb : TimeBounded T st) (hgood : goodOp op = true)
    (hT : T ≤ op.time) : TimeBounded op.time (applyOp session_timeout st op) := by
  cases op with
  | get now uid =>
      rw [applyOp_get]
      cases hst : lookupSession st uid with
      | none =>
          rw [get_session_absent now uid st hst]
          exact timeBounded_setSession uid (timeBounded_mono hT htb)
            (le_refl now) (le_refl now)
      | some s =>
          rw [get_session_present now uid st hst]
          rcases htb uid s hst with ⟨h1, h2⟩
          exact timeBounded_setSession uid (timeBounded_mono hT htb)
            (h1.trans (h2.trans hT)) (le_refl now)
  | update now uid kwargs =>
      rw [applyOp_update]
      cases hst : lookupSession st uid with
      | none =>
          rw [update_session_absent now uid kwargs st hst]
          exact timeBounded_mono hT htb
      | some s =>
          rw [update_session_present now uid kwargs st hst]
          rcases htb uid s hst with ⟨h1, h2⟩
          have hkw : ∀ u ∈ kwargs, keepsCreatedAt u = true := by
            intro u hu
            exact List.all_eq_true.mp hgood u hu
          refine timeBounded_setSession uid (timeBounded_mono hT htb) ?_ (le_refl now)
          show (kwargs.foldl applyFieldUpdate s).created_at ≤ now
          rw [created_foldl_applyFieldUpdate s hkw]
          exact h1.trans (h2.trans hT)
  | addMsg now uid role content =>
      rw [applyOp_addMsg]
      cases hst : lookupSession st uid with
      | none =>
          rw [add_message_absent now uid role content st hst]
          exact timeBounded_mono hT htb
      | some s =>
          rw [add_message_present now uid role content st hst]
          rcases htb uid s hst with ⟨h1, h2⟩
          exact timeBounded_setSession uid (timeBounded_mono hT htb)
            (h1.trans (h2.trans hT)) (le_refl now)
  | endS now uid =>
      rw [applyOp_endS]
      intro uid' s' hl'
      unfold end_session at hl'
      by_cases he : uid' = uid
      · subst he
        rw [lookupSession_eraseSession_self] at hl'
        exact Option.noConfusion hl'
      · rw [lookupSession_eraseSession_other st uid uid' he] at hl'
        exact timeBounded_mono hT htb uid' s' hl'
  | tick now =>
      rw [applyOp_tick]
      intro uid' s' hl'
      cases hst : lookupSession st uid' with
      | none =>
          rw [tick_lookup_absent session_timeout now hwf hst] at hl'
          exact Option.noConfusion hl'
      | some s =>
          by_cases hc : dueClose session_timeout now s
          · rw [tick_lookup_close session_timeout now hwf hst hc] at hl'
            exact Option.noConfusion hl'
          · by_cases hw : dueWarn session_timeout now s
            · rw [tick_lookup_warn session_timeout now hwf hst
                (Bool.not_eq_true _ ▸ hc) hw] at hl'
              cases hl'
              rcases htb uid' s hst with ⟨h1, h2⟩
              exact ⟨h1, h2.trans hT⟩
            · rw [tick_lookup_idle session_timeout now hwf hst
                (Bool.not_eq_true _ ▸ hc) (Bool.not_eq_true _ ▸ hw)] at hl'
              cases hl'
              rcases htb uid' s' hst with ⟨h1, h2⟩
              exact ⟨h1, h2.trans hT⟩

theorem foldl_created_le_last (session_timeout : Nat) (ops : List Op) :
    ∀ (st : Store) (T : Nat), WFStore st → TimeBounded T st →
      (∀ op ∈ ops, goodOp op = true) →
      List.Chain' (· ≤ ·) (T :: ops.map Op.time) →
      ∀ uid s, lookupSession (ops.foldl (applyOp session_timeout) st) uid = some s →
        s.created_at ≤ s.last_activity := by
  induction ops with
  | nil =>
      intro st T hwf htb hgood hchain uid s hl
      exact (htb uid s hl).1
  | cons op ops ih =>
      intro st T hwf htb hgood hchain uid s hl
      simp only [List.map_cons] at hchain
      rcases List.chain'_cons.mp hchain with ⟨hTt, hchain'⟩
      simp only [List.foldl_cons] at hl
      exact ih (applyOp session_timeout st op) op.time
        (WFStore_applyOp session_timeout st op hwf)
        (timeBounded_applyOp session_timeout op hwf htb
          (hgood op (List.mem_cons_self op ops)) hTt)
        (fun o ho => hgood o (List.mem_cons_of_mem op ho))
        hchain' uid s hl

/-- C9 (amended): in any run of foreground operations and scheduler passes
whose call instants are nondecreasing and whose updates never overwrite
`created_at`, every stored session satisfies
`created_at <= last_activity`.  (Restoring a file — see the counterexample —
or an update kwarg `created_at=...` can break the invariant.) -/
theorem claim_C9_created_le_last (session_timeout : Nat) (ops : List Op)
    (hgood : ∀ op ∈ ops, goodOp op = true)
    (hmono : List.Chain' (· ≤ ·) (ops.map Op.time))
    (uid : String) (s : Session)
    (h : lookupSession (run session_timeout ops) uid = some s) :
    s.created_at ≤ s.last_activity := by
  apply foldl_created_le_last session_timeout ops [] 0 List.nodup_nil
    (fun uid' s' hl' => Option.noConfusion hl') hgood ?_ uid s h
  rw [List.chain'_cons']
  exact ⟨fun b _ => Nat.zero_le b, hmono⟩

/-- A run whose final tick (at instant 300, inactivity 291 < timeout/2 = 300)
takes no action, so the session is still in the store afterwards. -/
def c9WitnessOps : List Op := [Op.get 5 "u", Op.addMsg 9 "u" "user" "hola", Op.tick 300]

/-- The session `run 600 c9WitnessOps` leaves in the store: created at 5, a
message appended at 9, untouched by the idle tick. -/
def c9WitnessSession : Session :=
  { created_at := 5
    last_activity := 9
    state := "INITIAL"
    context := Json.obj []
    thread_id := none
    message_history := [⟨"user", "hola", isoformat 9⟩]
    inactivity_warning_sent := false
    closing_notice_sent := false }

theorem claim_C9_witness :
    (∀ op ∈ c9WitnessOps, goodOp op = true) ∧
    List.Chain' (· ≤ ·) (c9WitnessOps.map Op.time) ∧
    lookupSession (run 600 c9WitnessOps) "u" = some c9WitnessSession ∧
    c9WitnessSession.created_at ≤ c9WitnessSession.last_activity :=
  ⟨by decide,
   by
     simp only [c9WitnessOps, List.map_cons, List.map_nil, Op.time, List.chain'_cons,
       List.chain'_singleton, and_true]
     omega,
   rfl,
   claim_C9_created_le_last 600 c9WitnessOps
     (by decide)
     (by
       simp only [c9WitnessOps, List.map_cons, List.map_nil, Op.time, List.chain'_cons,
         List.chain'_singleton, and_true]
       omega)
     "u" c9WitnessSession rfl⟩

/-! ## C3: one warning, then (possibly) one close, never both in one pass -/

/-- The `(users_to_close, users_to_warn)` lists one scheduler pass commits to
act on. -/
def tickActions (session_timeout now : Nat) (st : Store) : List String × List String :=
  (scanSessions session_timeout now st).2

/-- The tick instants (within the given schedule, starting from the given
store and with no interleaved foreground activity) at which a warning
notification is attempted for the user. -/
def warnTimes (session_timeout : Nat) : Store → List Nat → String → List Nat
  | _, [], _ => []
  | st, t :: ts, uid =>
      (if uid ∈ (tickActions session_timeout t st).2 then [t] else [])
        ++ warnTimes session_timeout (tick session_timeout t st) ts uid

/-- The tick instants at which a close notification is attempted for the
user. -/
def closeTimes (session_timeout : Nat) : Store → List Nat → String → List Nat
  | _, [], _ => []
  | st, t :: ts, uid =>
      (if uid ∈ (tickActions session_timeout t st).1 then [t] else [])
        ++ closeTimes session_timeout (tick session_timeout t st) ts uid

theorem times_absent (session_timeout : Nat) (ts : List Nat) (uid : String) :
    ∀ st : Store, WFStore st → lookupSession st uid = none →
      warnTimes session_timeout st ts uid = [] ∧
      closeTimes session_timeout st ts uid = [] := by
  induction ts with
  | nil => intro st _ _; exact ⟨rfl, rfl⟩
  | cons t ts ih =>
      intro st hwf h
      have hnk : uid ∉ storeKeys st := fun hmem => by
        rcases lookupSession_some_of_mem_keys hmem with ⟨s, hs⟩
        rw [hs] at h
        exact Option.noConfusion h
      have hw : uid ∉ (tickActions session_timeout t st).2 :=
        fun hmem => hnk (mem_scanWarn_keys session_timeout t st uid hmem)
      have hc : uid ∉ (tickActions session_timeout t st).1 :=
        fun hmem => hnk (mem_scanClose_keys session_timeout t st uid hmem)
      have hrest := ih (tick session_timeout t st) (WFStore_tick session_timeout t hwf)
        (tick_lookup_absent session_timeout t hwf h)
      refine ⟨?_, ?_⟩
      · simp only [warnTimes, if_neg hw, List.nil_append]
        exact hrest.1
      · simp only [closeTimes, if_neg hc, List.nil_append]
        exact hrest.2

theorem times_warned (session_timeout : Nat) (ts : List Nat) (uid : String) :
    ∀ (st : Store) (s : Session), WFStore st → lookupSession st uid = some s →
      s.inactivity_warning_sent = true → s.closing_notice_sent = false →
      warnTimes session_timeout st ts uid = [] ∧
      ∀ c ∈ closeTimes session_timeout st ts uid, c ∈ ts := by
  induction ts with
  | nil => intro st s _ _ _ _; exact ⟨rfl, by simp [closeTimes]⟩
  | cons t ts ih =>
      intro st s hwf h hwflag hcflag
      have hdw : dueWarn session_timeout t s = false := by
        unfold dueWarn
        rw [hwflag]
        simp
      have hwmem : uid ∉ (tickActions session_timeout t st).2 := fun hmem => by
        rcases (mem_scanWarn_iff session_timeout t hwf uid).mp hmem with ⟨s', hs', _, hw'⟩
        rw [h] at hs'
        cases hs'
        rw [hdw] at hw'
        exact Bool.noConfusion hw'
      by_cases hcl : dueClose session_timeout t s = true
      · have hcmem : uid ∈ (tickActions session_timeout t st).1 :=
          (mem_scanClose_iff session_timeout t hwf uid).mpr ⟨s, h, hcl⟩
        have habs := times_absent session_timeout ts uid (tick session_timeout t st)
          (WFStore_tick session_timeout t hwf)
          (tick_lookup_close session_timeout t hwf h hcl)
        refine ⟨?_, ?_⟩
        · simp only [warnTimes, if_neg hwmem, List.nil_append]
          exact habs.1
        · simp only [closeTimes, if_pos hcmem, List.singleton_append]
          rw [habs.2]
          intro c hc
          simp only [List.mem_cons, List.not_mem_nil, or_false] at hc
          subst hc
          exact List.mem_cons_self c ts
      · have hcmem : uid ∉ (tickActions session_timeout t st).1 := fun hmem => by
          rcases (mem_scanClose_iff session_timeout t hwf uid).mp hmem with ⟨s', hs', hc'⟩
          rw [h] at hs'
          cases hs'
          exact hcl hc'
        have hnext := tick_lookup_idle session_timeout t hwf h
          (Bool.not_eq_true _ ▸ hcl) hdw
        have hrest := ih (tick session_timeout t st) s
          (WFStore_tick session_timeout t hwf) hnext hwflag hcflag
        refine ⟨?_, ?_⟩
        · simp only [warnTimes, if_neg hwmem, List.nil_append]
          exact hrest.1
        · simp only [closeTimes, if_neg hcmem, List.nil_append]
          intro c hc
          exact List.mem_cons_of_mem t (hrest.2 c hc)

/-- C3: for a session whose inactivity is observed by some scheduler pass
inside the warning window `[timeout/2, timeout)` with no foreground activity
across the schedule, exactly one warning is attempted, every close attempt
comes at a strictly later pass (never the reverse), and no single pass both
warns and closes the session (the closing branch has priority in the
`elif`). -/
theorem claim_C3_warn_before_close (session_timeout : Nat) (ts : List Nat) :
    ∀ (st : Store) (s : Session) (uid : String), WFStore st →
      lookupSession st uid = some s →
      s.inactivity_warning_sent = false → s.closing_notice_sent = false →
      List.Chain' (· < ·) ts →
      (∃ t ∈ ts,
        ((session_timeout / 2 : Nat) : Int) ≤ (t : Int) - (s.last_activity : Int) ∧
          (t : Int) - (s.last_activity : Int) < (session_timeout : Int)) →
      ∃ w, warnTimes session_timeout st ts uid = [w] ∧
        (∀ c ∈ closeTimes session_timeout st ts uid, w < c) ∧
        w ∉ closeTimes session_timeout st ts uid := by
  induction ts with
  | nil =>
      intro st s uid _ _ _ _ _ hwin
      rcases hwin with ⟨t, ht, _⟩
      simp at ht
  | cons t ts ih =>
      intro st s uid hwf h hwflag hcflag hchain hwin
      have hlater : ∀ x ∈ ts, t < x := by
        have hp := List.chain'_iff_pairwise.mp hchain
        exact (List.pairwise_cons.mp hp).1
      have hchain' : List.Chain' (· < ·) ts := hchain.tail
      by_cases hclose : (session_timeout : Int) ≤ (t : Int) - (s.last_activity : Int)
      · exfalso
        rcases hwin with ⟨x, hx, hx1, hx2⟩
        rcases List.mem_cons.mp hx with heq | hx'
        · subst heq
          exact absurd hclose (not_le.mpr hx2)
        · have hlt : t < x := hlater x hx'
          have : (t : Int) - (s.last_activity : Int) < (x : Int) - (s.last_activity : Int) := by
            omega
          omega
      · by_cases hwarn :
            ((session_timeout / 2 : Nat) : Int) ≤ (t : Int) - (s.last_activity : Int)
        · have hdw : dueWarn session_timeout t s = true := by
            unfold dueWarn inactiveTime
            rw [hwflag]
            simp only [Bool.not_false, Bool.and_true, decide_eq_true_eq]
            exact hwarn
          have hdc : dueClose session_timeout t s = false := by
            unfold dueClose inactiveTime
            rw [hcflag]
            simp only [Bool.not_false, Bool.and_true]
            exact decide_eq_false hclose
          have hwmem : uid ∈ (tickActions session_timeout t st).2 :=
            (mem_scanWarn_iff session_timeout t hwf uid).mpr ⟨s, h, hdc, hdw⟩
          have hcmem : uid ∉ (tickActions session_timeout t st).1 := fun hmem => by
            rcases (mem_scanClose_iff session_timeout t hwf uid).mp hmem with ⟨s', hs', hc'⟩
            rw [h] at hs'
            cases hs'
            rw [hdc] at hc'
            exact Bool.noConfusion hc'
          have hnext := tick_lookup_warn session_timeout t hwf h hdc hdw
          have hrest := times_warned session_timeout ts uid (tick session_timeout t st)
            _ (WFStore_tick session_timeout t hwf) hnext rfl hcflag
          refine ⟨t, ?_, ?_, ?_⟩
          · simp only [warnTimes, if_pos hwmem, List.singleton_append]
            rw [hrest.1]
          · intro c hc
            simp only [closeTimes, if_neg hcmem, List.nil_append] at hc
            exact hlater c (hrest.2 c hc)
          · intro hmem
            simp only [closeTimes, if_neg hcmem, List.nil_append] at hmem
            exact lt_irrefl t (hlater t (hrest.2 t hmem))
        · have hdw : dueWarn session_timeout t s = false := by
            unfold dueWarn inactiveTime
            rw [hwflag]
            simp only [Bool.not_false, Bool.and_true]
            exact decide_eq_false hwarn
          have hdc : dueClose session_timeout t s = false := by
            unfold dueClose inactiveTime
            rw [hcflag]
            simp only [Bool.not_false, Bool.and_true]
            exact decide_eq_false hclose
          have hwmem : uid ∉ (tickActions session_timeout t st).2 := fun hmem => by
            rcases (mem_scanWarn_iff session_timeout t hwf uid).mp hmem
              with ⟨s', hs', _, hw'⟩
            rw [h] at hs'
            cases hs'
            rw [hdw] at hw'
            exact Bool.noConfusion hw'
          have hcmem : uid ∉ (tickActions session_timeout t st).1 := fun hmem => by
            rcases (mem_scanClose_iff session_timeout t hwf uid).mp hmem with ⟨s', hs', hc'⟩
            rw [h] at hs'
            cases hs'
            rw [hdc] at hc'
            exact Bool.noConfusion hc'
          have hnext := tick_lookup_idle session_timeout t hwf h hdc hdw
          have hwin' : ∃ x ∈ ts,
              ((session_timeout / 2 : Nat) : Int) ≤ (x : Int) - (s.last_activity : Int) ∧
                (x : Int) - (s.last_activity : Int) < (session_timeout : Int) := by
            rcases hwin with ⟨x, hx, hx1, hx2⟩
            rcases List.mem_cons.mp hx with heq | hx'
            · subst heq
              exact absurd hx1 hwarn
            · exact ⟨x, hx', hx1, hx2⟩
          rcases ih (tick session_timeout t st) s uid (WFStore_tick session_timeout t hwf)
            hnext hwflag hcflag hchain' hwin' with ⟨w, hw1, hw2, hw3⟩
          refine ⟨w, ?_, ?_, ?_⟩
          · simp only [warnTimes, if_neg hwmem, List.nil_append]
            exact hw1
          · intro c hc
            simp only [closeTimes, if_neg hcmem, List.nil_append] at hc
            exact hw2 c hc
          · intro hmem
            simp only [closeTimes, if_neg hcmem, List.nil_append] at hmem
            exact hw3 hmem

theorem claim_C3_witness :
    WFStore demoFreshStaleStore ∧
    lookupSession demoFreshStaleStore "u2" = some (newSession 0) ∧
    (newSession 0).inactivity_warning_sent = false ∧
    (newSession 0).closing_notice_sent = false ∧
    List.Chain' (· < ·) [310, 620] ∧
    (∃ t ∈ [310, 620],
      ((600 / 2 : Nat) : Int) ≤ (t : Int) - ((newSession 0).last_activity : Int) ∧
        (t : Int) - ((newSession 0).last_activity : Int) < (600 : Int)) ∧
    ∃ w, warnTimes 600 demoFreshStaleStore [310, 620] "u2" = [w] ∧
      (∀ c ∈ closeTimes 600 demoFreshStaleStore [310, 620] "u2", w < c) ∧
      w ∉ closeTimes 600 demoFreshStaleStore [310, 620] "u2" :=
  ⟨List.nodup_singleton "u2", rfl, rfl, rfl,
   by
     simp only [List.chain'_cons, List.chain'_singleton, and_true]
     omega,
   by decide,
   claim_C3_warn_before_close 600 [310, 620] demoFreshStaleStore (newSession 0) "u2"
     (List.nodup_singleton "u2") rfl rfl rfl
     (by
       simp only [List.chain'_cons, List.chain'_singleton, and_true]
       omega)
     (by decide)⟩
